import Mathlib

/-!
# Verification of the Terrain API worker (psiegel18/3D_Map, src/worker.js)

This file gives a shallow embedding of the elevation-pipeline worker
(`src/worker.js`, the authoritative revision) and proves properties of it.

Modelling conventions:
* JS numbers are modelled as `ℚ`; a NaN (or otherwise non-finite) value is
  modelled as `none : Option ℚ` at the few places where the code can produce
  one (failed `parseFloat`/`parseInt`, division by zero).
* `url.searchParams.get(k)` yields `Option String` (`none` = parameter absent).
* The external collaborators (geocoding, elevation API, KV cache) are pure
  oracles passed as parameters; `Math.cos(x * Math.PI / 180)` is likewise an
  abstract parameter `cosFn : ℚ → ℚ` since it is transcendental.
* `toFixed(n)` is modelled as exact decimal rounding of the rational value
  (round half towards +∞; the half-tie case is immaterial to every statement
  proved here).
* The handler's observable I/O actions (geocoding call, cache get/put, grid
  generation, per-batch elevation calls, inter-batch pacing delays) are
  recorded in an event trace, in program order; the `try/catch` that maps any
  thrown error to a 500 response is modelled by propagating `Except.error`
  to the 500-building branch.
* The Sentry instrumentation, CORS headers, the OPTIONS preflight and the
  `/debug-sentry` admin route are outside the modelled core (the spec excludes
  them); the model covers the elevation GET route, lines 104-344 of worker.js.
-/

/-! ## JS parameter parsing (worker.js lines 104-108) -/

/-- Numeric value of a decimal digit character. -/
def digitVal (c : Char) : ℕ := c.toNat - 48

/-- Splits a character list into its longest leading run of decimal digits
and the remainder. -/
def leadingDigits : List Char → List Char × List Char
  | [] => ([], [])
  | c :: cs =>
    if c.isDigit then
      let p := leadingDigits cs
      (c :: p.1, p.2)
    else ([], c :: cs)

/-- Natural number denoted by a digit string (most significant first). -/
def natOfDigits (ds : List Char) : ℕ := ds.foldl (fun n c => 10 * n + digitVal c) 0

/-- Optional leading sign, as in JS numeric parsing. Returns (isNegative, rest). -/
def parseSign : List Char → Bool × List Char
  | '-' :: cs => (true, cs)
  | '+' :: cs => (false, cs)
  | cs => (false, cs)

/-- JS `parseFloat` on a string: parses a longest prefix of the form
`[+-]? digits [. digits]` and returns `none` (NaN) when no digits are found.
(Exponents, `Infinity` and leading whitespace are outside the input grammar
exercised by this worker and are not modelled.) -/
def jsParseFloat (s : String) : Option ℚ :=
  let sg := parseSign s.toList
  let ip := leadingDigits sg.2
  match ip.2 with
  | '.' :: cs2 =>
    let fp := leadingDigits cs2
    if ip.1 = [] ∧ fp.1 = [] then none
    else
      let mag : ℚ := (natOfDigits ip.1 : ℚ) + (natOfDigits fp.1 : ℚ) / (10 : ℚ) ^ fp.1.length
      some (if sg.1 then -mag else mag)
  | _ =>
    if ip.1 = [] then none
    else
      let mag : ℚ := (natOfDigits ip.1 : ℚ)
      some (if sg.1 then -mag else mag)

/-- JS `parseInt` (radix 10) on a string: longest prefix `[+-]? digits`,
`none` (NaN) when no digits are found. -/
def jsParseInt (s : String) : Option ℤ :=
  let sg := parseSign s.toList
  let ds := leadingDigits sg.2
  if ds.1 = [] then none
  else some ((if sg.1 then -1 else 1) * (natOfDigits ds.1 : ℤ))

/-- JS `parseFloat(url.searchParams.get(k))`: an absent parameter is `null`,
which `parseFloat` coerces to the string "null", i.e. NaN. -/
def jsParseFloatOpt : Option String → Option ℚ
  | none => none
  | some s => jsParseFloat s

/-- JS `parseInt(url.searchParams.get(k))`: absent parameter gives NaN. -/
def jsParseIntOpt : Option String → Option ℤ
  | none => none
  | some s => jsParseInt s

/-- JS falsy-or `v || d` applied to a number `v` that may be NaN (`none`):
NaN and 0 are falsy, every other number passes through. -/
def jsOrQ (v : Option ℚ) (d : ℚ) : ℚ :=
  match v with
  | none => d
  | some x => if x = 0 then d else x

/-- JS falsy-or `v || d` on an integer that may be NaN (`none`). -/
def jsOrZ (v : Option ℤ) (d : ℤ) : ℤ :=
  match v with
  | none => d
  | some x => if x = 0 then d else x

/-- Line 107: `const size = parseFloat(url.searchParams.get('size')) || 10`. -/
def parseSize (s : Option String) : ℚ := jsOrQ (jsParseFloatOpt s) 10

/-- Line 108: `const grid = parseInt(url.searchParams.get('grid')) || 40`. -/
def parseGrid (s : Option String) : ℤ := jsOrZ (jsParseIntOpt s) 40

/-- JS truthiness of a possibly-absent string: `null` and `""` are falsy. -/
def truthy : Option String → Bool
  | none => false
  | some s => !s.isEmpty

/-! ## Grid generation (worker.js lines 206-220) -/

/-- `x.toFixed(6)` as exact decimal rounding to 6 places. -/
def toFixed6 (x : ℚ) : ℚ := (round (x * 1000000) : ℚ) / 1000000

/-- `x.toFixed(4)` as exact decimal rounding to 4 places. -/
def toFixed4 (x : ℚ) : ℚ := (round (x * 10000) : ℚ) / 10000

/-- JS division where the result may be non-finite: `none` models the NaN
(resp. ±Infinity) produced when the divisor is zero. -/
def jsDiv (a b : ℚ) : Option ℚ := if b = 0 then none else some (a / b)

/-- A sample-grid coordinate as pushed into `locations`: each component is the
`toFixed(6)`-rounded number, or `none` when the JS computation yields a
non-finite value (NaN/Infinity propagates through `toFixed` as a non-number). -/
abbrev Coord := Option ℚ × Option ℚ

/-- One grid point, from the loop body at lines 213-218:
`latOffset = (i / (grid - 1) - 0.5) * size / kmPerDegLat`,
`lonOffset = (j / (grid - 1) - 0.5) * size / kmPerDegLon`, pushed as
`{(centerLat + latOffset).toFixed(6), (centerLon + lonOffset).toFixed(6)}`.
`cosLat` stands for `Math.cos(centerLat * Math.PI / 180)`;
`kmPerDegLat = 111` is a nonzero constant so plain division is used there. -/
def gridPoint (centerLat centerLon size cosLat : ℚ) (grid : ℤ) (i j : ℕ) : Coord :=
  let kmPerDegLat : ℚ := 111
  let kmPerDegLon : ℚ := 111 * cosLat
  let latOffset := (jsDiv (i : ℚ) ((grid : ℚ) - 1)).map (fun f => (f - 1/2) * size / kmPerDegLat)
  let lonOffset := (jsDiv (j : ℚ) ((grid : ℚ) - 1)).bind (fun f => jsDiv ((f - 1/2) * size) kmPerDegLon)
  (latOffset.map (fun o => toFixed6 (centerLat + o)),
   lonOffset.map (fun o => toFixed6 (centerLon + o)))

/-- The `locations` array built by the nested loops at lines 210-220:
row index `i` outer, column index `j` inner, `grid.toNat` iterations each
(a non-positive `grid` gives zero loop iterations, as in JS). -/
def generateGrid (centerLat centerLon size cosLat : ℚ) (grid : ℤ) : List Coord :=
  ((List.range grid.toNat).map (fun i =>
    (List.range grid.toNat).map (fun j =>
      gridPoint centerLat centerLon size cosLat grid i j))).flatten

/-! ## Data model: results, responses, errors, events -/

/-- An elevation sample: a number, or `none` for the null / non-numeric
sentinel the upstream may return (`r.elevation` being `null` or NaN). -/
abbrev Sample := Option ℚ

/-- The `result` record assembled at lines 301-308. -/
structure TerrainResult where
  name : String
  center : ℚ × ℚ
  elevations : List Sample
  minElev : ℚ
  maxElev : ℚ
  grid : ℤ
deriving DecidableEq

/-- The cache key of line 185,
`terrain:${centerLat.toFixed(4)}:${centerLon.toFixed(4)}:${size}:${grid}`,
modelled by its four components (the string rendering is injective on them). -/
abbrev CacheKey := ℚ × ℚ × ℚ × ℤ

def cacheKey (centerLat centerLon size : ℚ) (grid : ℤ) : CacheKey :=
  (toFixed4 centerLat, toFixed4 centerLon, size, grid)

/-- The KV namespace binding: a lookup function (reads only; writes are
recorded in the event trace). `env.CACHE` may be absent, hence `Option`. -/
abbrev CacheStore := CacheKey → Option TerrainResult

/-- A thrown JS `Error` (its `.message`). -/
structure Thrown where
  message : String
deriving DecidableEq

/-- Response body: the JSON error shape `{ error, details? }`, or a terrain
result (with the `cached` flag added on cache hits). -/
inductive Body where
  | errorBody (error : String) (details : Option String)
  | resultBody (r : TerrainResult) (cached : Bool)
deriving DecidableEq

structure HttpResponse where
  status : ℕ
  body : Body
deriving DecidableEq

/-- Observable I/O actions of one request, in program order. -/
inductive Ev where
  | geocode (q : String)
  | cacheGet (key : CacheKey)
  | gridGen
  | elevBatch (batch : List Coord)
  | delay
  | cachePut (key : CacheKey) (value : TerrainResult)
deriving DecidableEq

def isBatchEv : Ev → Bool
  | .elevBatch _ => true
  | _ => false

def isDelayEv : Ev → Bool
  | .delay => true
  | _ => false

/-- The batch payloads of the elevation calls appearing in a trace. -/
def batchCalls (evs : List Ev) : List (List Coord) :=
  evs.filterMap (fun e => match e with | .elevBatch b => some b | _ => none)

/-! ## Elevation fetching (worker.js lines 222-279) -/

/-- One geocoding candidate (`geoResult[0]`): Nominatim returns `lat`/`lon`
as strings, parsed with `parseFloat` at lines 153-154. -/
structure GeoCandidate where
  lat : String
  lon : String
  display_name : String

/-- The geocoding collaborator's reply: HTTP success flag and the candidate
array (a null / empty body is the empty list). -/
structure GeoResponse where
  ok : Bool
  body : List GeoCandidate

/-- The elevation collaborator's reply to one batch call: HTTP success flag,
the JSON `status` field, and the `results` array (`none` when the field is
absent/null, i.e. falsy). -/
structure ElevResponse where
  ok : Bool
  status : String
  results : Option (List Sample)

/-- Lines 249-265: a non-success HTTP status throws `Elevation API failed`;
`status !== 'OK' || !results` throws `Elevation API error`; otherwise the
batch's elevation values are returned. -/
def processBatch (r : ElevResponse) : Except Thrown (List Sample) :=
  if r.ok = false then .error ⟨"Elevation API failed"⟩
  else if r.status ≠ "OK" then .error ⟨"Elevation API error"⟩
  else
    match r.results with
    | none => .error ⟨"Elevation API error"⟩
    | some rs => .ok rs

/-- Line 228: `const BATCH_SIZE = 100`. -/
def BATCH_SIZE : ℕ := 100

/-- Line 230: `Math.ceil(locations.length / BATCH_SIZE)`. -/
def numBatches (n : ℕ) : ℕ := (n + BATCH_SIZE - 1) / BATCH_SIZE

/-- The batch starting at index `BATCH_SIZE * k`:
`locations.slice(i, i + BATCH_SIZE)` at line 237. -/
def chunk (l : List Coord) (k : ℕ) : List Coord :=
  (l.drop (BATCH_SIZE * k)).take BATCH_SIZE

/-- All batches visited by the loop `for (i = 0; i < locations.length;
i += BATCH_SIZE)`, indexed by batch number. -/
def chunksOf (l : List Coord) : List (List Coord) :=
  (List.range (numBatches l.length)).map (chunk l)

/-- The loop body at lines 235-275 over the remaining batch indices `ks`:
each iteration issues one call (recorded as an `elevBatch` event), aborts on
a failed batch, appends the batch values to the accumulator, and awaits the
pacing delay (a `delay` event) when `i + BATCH_SIZE < locations.length`. -/
def elevLoopAux (elev : List Coord → ElevResponse) (l : List Coord) :
    List ℕ → List Ev × Except Thrown (List Sample)
  | [] => ([], .ok [])
  | k :: ks =>
    let b := chunk l k
    match processBatch (elev b) with
    | .error t => ([Ev.elevBatch b], .error t)
    | .ok es =>
      let dl := if BATCH_SIZE * k + BATCH_SIZE < l.length then [Ev.delay] else []
      let p := elevLoopAux elev l ks
      (Ev.elevBatch b :: (dl ++ p.1),
       match p.2 with
       | .error t => .error t
       | .ok rest => .ok (es ++ rest))

/-- The whole elevation fetch of lines 235-277: sequential batch loop. -/
def elevLoop (elev : List Coord → ElevResponse) (l : List Coord) :
    List Ev × Except Thrown (List Sample) :=
  elevLoopAux elev l (List.range (numBatches l.length))

/-! ## Aggregation (worker.js lines 281-299) -/

/-- Lines 281-289: `validElevations = elevations.filter(e => e !== null &&
!isNaN(e))`; throw `No valid elevation data` when empty; otherwise
`minElev = Math.min(...validElevations)`, `maxElev = Math.max(...)`. -/
def aggregate (elevations : List Sample) : Except Thrown (ℚ × ℚ) :=
  let validElevations := elevations.filterMap id
  match validElevations with
  | [] => .error ⟨"No valid elevation data for this location"⟩
  | x :: xs => .ok (xs.foldl min x, xs.foldl max x)

/-! ## Coordinate resolution and request handling (worker.js lines 104-344) -/

/-- Outcome of the coordinate-resolution section (lines 121-166). -/
inductive ResolveOut where
  | center (centerLat centerLon : Option ℚ) (name : String)
  | early (resp : HttpResponse)
  | thrown (t : Thrown)

def notFoundResponse : HttpResponse :=
  ⟨404, .errorBody "Location not found" none⟩

def missingParamsResponse : HttpResponse :=
  ⟨400, .errorBody "Provide ?q=location or ?lat=X&lon=Y" none⟩

def invalidCoordsResponse : HttpResponse :=
  ⟨400, .errorBody "Invalid coordinates" none⟩

/-- A thrown error caught at lines 326-344: status 500, body
`{ error: error.message, details: error.toString() }`. -/
def throwResponse (t : Thrown) : HttpResponse :=
  ⟨500, .errorBody t.message (some ("Error: " ++ t.message))⟩

/-- The coordinate name `centerLat.toFixed(4), centerLon.toFixed(4)` of
line 159 ("NaN" when the parse failed; the numeral rendering is idealized). -/
def fmtCoordPart : Option ℚ → String
  | none => "NaN"
  | some x => toString (toFixed4 x)

def fmtCoordName (a b : Option ℚ) : String :=
  fmtCoordPart a ++ ", " ++ fmtCoordPart b

/-- Lines 121-166: with a truthy `q`, call the geocoding collaborator
(`geocode` event); a non-success reply throws `Geocoding failed`; an empty
candidate list returns 404 directly; otherwise the first candidate is parsed.
Without `q`, a truthy `lat` and `lon` pair is parsed directly; otherwise a
400 is returned. The NaN validation happens later (line 169), so the parsed
components stay `Option ℚ` here. -/
def resolveCenter (geo : String → GeoResponse) (q lat lon : Option String) :
    List Ev × ResolveOut :=
  if truthy q then
    let qs := q.getD ""
    let res := geo qs
    ([Ev.geocode qs],
     if res.ok = false then .thrown ⟨"Geocoding failed"⟩
     else
       match res.body with
       | [] => .early notFoundResponse
       | c :: _ => .center (jsParseFloat c.lat) (jsParseFloat c.lon) c.display_name)
  else if truthy lat && truthy lon then
    ([], .center (jsParseFloatOpt lat) (jsParseFloatOpt lon)
          (fmtCoordName (jsParseFloatOpt lat) (jsParseFloatOpt lon)))
  else
    ([], .early missingParamsResponse)

/-- Lines 206-308 (the cache-miss pipeline): generate the grid (a `gridGen`
event), fetch elevations in batches, filter the valid samples, throw when
none are valid, and assemble the `result` record. -/
def computeTerrain (cosFn : ℚ → ℚ) (elev : List Coord → ElevResponse)
    (centerLat centerLon size : ℚ) (grid : ℤ) (name : String) :
    List Ev × Except Thrown TerrainResult :=
  let locations := generateGrid centerLat centerLon size (cosFn centerLat) grid
  let p := elevLoop elev locations
  (Ev.gridGen :: p.1,
   match p.2 with
   | .error t => .error t
   | .ok elevations =>
     match aggregate elevations with
     | .error t => .error t
     | .ok mm => .ok ⟨name, (centerLat, centerLon), elevations, mm.1, mm.2, grid⟩)

/-- The tail of the miss path: run the pipeline; a thrown error is caught as a
500 (lines 326-344); a result is returned as 200 and stored in the cache when
`env.CACHE` is present (`putKey = some k`), lines 310-324. -/
def runMiss (cosFn : ℚ → ℚ) (elev : List Coord → ElevResponse)
    (putKey : Option CacheKey) (centerLat centerLon size : ℚ) (grid : ℤ)
    (name : String) (evs : List Ev) : HttpResponse × List Ev :=
  let p := computeTerrain cosFn elev centerLat centerLon size grid name
  match p.2 with
  | .error t => (throwResponse t, evs ++ p.1)
  | .ok r =>
    (⟨200, .resultBody r false⟩,
     evs ++ p.1 ++ (match putKey with
                    | some k => [Ev.cachePut k r]
                    | none => []))

/-- The `fetch` handler of worker.js (lines 104-344) restricted to the
elevation route: parse parameters, resolve the center, validate it (400 on
NaN), derive the cache key, look the key up when `env.CACHE` is present
(returning the stored result with `cached: true` on a hit), and otherwise run
the pipeline. Returns the response and the event trace. -/
def workerFetch (cosFn : ℚ → ℚ) (geo : String → GeoResponse)
    (elev : List Coord → ElevResponse) (cache : Option CacheStore)
    (q lat lon sizeS gridS : Option String) : HttpResponse × List Ev :=
  let size := parseSize sizeS
  let grid := parseGrid gridS
  match resolveCenter geo q lat lon with
  | (evs, .early r) => (r, evs)
  | (evs, .thrown t) => (throwResponse t, evs)
  | (evs, .center none _ _) => (invalidCoordsResponse, evs)
  | (evs, .center (some _) none _) => (invalidCoordsResponse, evs)
  | (evs, .center (some centerLat) (some centerLon) name) =>
    let key := cacheKey centerLat centerLon size grid
    match cache with
    | some store =>
      (match store key with
       | some r => (⟨200, .resultBody r true⟩, evs ++ [Ev.cacheGet key])
       | none =>
         runMiss cosFn elev (some key) centerLat centerLon size grid name
           (evs ++ [Ev.cacheGet key]))
    | none => runMiss cosFn elev none centerLat centerLon size grid name evs

/-! ## Lemmas: grid generation (claim C1, C7) -/

/-- Indexing a flattened list of blocks of uniform length `m`. -/
theorem flatten_getElem_uniform {α : Type} (m : ℕ) :
    ∀ (ls : List (List α)) (i j : ℕ), (∀ l ∈ ls, l.length = m) → j < m →
      ls.flatten[i * m + j]? = ls[i]?.bind (fun l => l[j]?) := by
  intro ls
  induction ls with
  | nil => intro i j _ _; simp
  | cons a t ih =>
    intro i j hlen hj
    have ha : a.length = m := hlen a (by simp)
    cases i with
    | zero =>
      have hja : j < a.length := by omega
      simp [List.getElem?_append, hja]
    | succ i =>
      have hidx : (i + 1) * m + j = a.length + (i * m + j) := by
        rw [ha]; ring
      have hge : ¬ (a.length + (i * m + j) < a.length) := by omega
      rw [hidx]
      simp only [List.flatten_cons, List.getElem?_append, if_neg hge,
        Nat.add_sub_cancel_left]
      rw [ih i j (fun l hl => hlen l (by simp [hl])) hj]
      simp

theorem generateGrid_length (centerLat centerLon size cosLat : ℚ) (grid : ℤ) :
    (generateGrid centerLat centerLon size cosLat grid).length
      = grid.toNat * grid.toNat := by
  simp [generateGrid, List.length_flatten, List.map_map, Function.comp_def]

theorem gridPoint_eq (centerLat centerLon size cosLat : ℚ) (grid : ℤ) (i j : ℕ)
    (hden : ((grid : ℚ) - 1) ≠ 0) (hc : cosLat ≠ 0) :
    gridPoint centerLat centerLon size cosLat grid i j
      = (some (toFixed6 (centerLat + ((i : ℚ) / ((grid : ℚ) - 1) - 1/2) * size / 111)),
         some (toFixed6 (centerLon + (((j : ℚ) / ((grid : ℚ) - 1) - 1/2) * size) / (111 * cosLat)))) := by
  have hlon : (111 : ℚ) * cosLat ≠ 0 := by
    intro h
    rcases mul_eq_zero.mp h with h1 | h1
    · norm_num at h1
    · exact hc h1
  unfold gridPoint jsDiv
  rw [if_neg hden, if_neg hden]
  simp [hlon]

theorem generateGrid_getElem (centerLat centerLon size cosLat : ℚ) (g : ℕ)
    (hg : 2 ≤ g) (hc : cosLat ≠ 0) (i j : ℕ) (hi : i < g) (hj : j < g) :
    (generateGrid centerLat centerLon size cosLat (g : ℤ))[i * g + j]?
      = some (some (toFixed6 (centerLat + ((i : ℚ) / ((g : ℚ) - 1) - 1/2) * size / 111)),
              some (toFixed6 (centerLon + (((j : ℚ) / ((g : ℚ) - 1) - 1/2) * size) / (111 * cosLat)))) := by
  have htn : ((g : ℤ)).toNat = g := Int.toNat_natCast g
  have hcast : (((g : ℤ) : ℚ)) = (g : ℚ) := by push_cast; rfl
  have hdenom : ((g : ℚ)) - 1 ≠ 0 := by
    have h2 : (2 : ℚ) ≤ (g : ℚ) := by exact_mod_cast hg
    intro h
    nlinarith
  unfold generateGrid
  rw [htn]
  rw [flatten_getElem_uniform g _ i j (by intro l hl; rcases List.mem_map.mp hl with ⟨i', _, rfl⟩; simp) hj]
  rw [List.getElem?_map, List.getElem?_range hi]
  simp only [Option.map_some', Option.some_bind]
  rw [List.getElem?_map, List.getElem?_range hj]
  simp only [Option.map_some']
  rw [gridPoint_eq _ _ _ _ _ _ _ (by rw [hcast]; exact hdenom) hc]
  rw [hcast]

/-! ## Test oracles for concrete instantiations -/

/-- Abstract cosine oracle fixing `Math.cos(centerLat * π / 180) = 1`
(exact at the equator). -/
def cosOne : ℚ → ℚ := fun _ => 1

/-- Geocoding oracle: one candidate at (1, 2) named "X". -/
def geoX : String → GeoResponse := fun _ => ⟨true, [⟨"1", "2", "X"⟩]⟩

/-- Elevation oracle answering 5 m for every requested coordinate. -/
def elevConst5 : List Coord → ElevResponse :=
  fun b => ⟨true, "OK", some (b.map (fun _ => some 5))⟩

/-- Elevation oracle answering the null sentinel for every coordinate. -/
def elevNull : List Coord → ElevResponse :=
  fun b => ⟨true, "OK", some (b.map (fun _ => none))⟩

/-- Elevation oracle whose HTTP call always fails. -/
def elevFail : List Coord → ElevResponse := fun _ => ⟨false, "", none⟩

/-! ## Claim C1: grid generator output -/

/-- **C1** (amended): for every center, every size, every nonzero value of
`Math.cos(centerLat·π/180)` and every integer `grid ≥ 2`, the grid generator
returns exactly `grid²` coordinate pairs in row-major order (`i` outer, `j`
inner), and the pair for `(i, j)` is the center plus a latitude offset
`(i/(grid-1) - 0.5)·size/111` and a longitude offset
`(j/(grid-1) - 0.5)·size/(111·cos centerLat)`, each coordinate then rounded
to six decimal places (the code's `toFixed(6)`). -/
theorem grid_rowmajor_rounded (centerLat centerLon size cosLat : ℚ) (g : ℕ)
    (hg : 2 ≤ g) (hc : cosLat ≠ 0) :
    (generateGrid centerLat centerLon size cosLat (g : ℤ)).length = g * g ∧
    ∀ i j : ℕ, i < g → j < g →
      (generateGrid centerLat centerLon size cosLat (g : ℤ))[i * g + j]?
        = some (some (toFixed6 (centerLat + ((i : ℚ) / ((g : ℚ) - 1) - 1/2) * size / 111)),
                some (toFixed6 (centerLon + (((j : ℚ) / ((g : ℚ) - 1) - 1/2) * size) / (111 * cosLat)))) := by
  refine ⟨?_, fun i j hi hj => generateGrid_getElem centerLat centerLon size cosLat g hg hc i j hi hj⟩
  rw [generateGrid_length]
  simp

/-- Witness for `grid_rowmajor_rounded` at center (0,0), size 1, cos = 1,
grid 2, sampling the entry (1,1). -/
theorem grid_rowmajor_rounded_witness :
    (generateGrid 0 0 1 1 ((2 : ℕ) : ℤ)).length = 2 * 2 ∧
    (generateGrid 0 0 1 1 ((2 : ℕ) : ℤ))[1 * 2 + 1]?
      = some (some (toFixed6 (0 + ((1 : ℚ) / ((2 : ℚ) - 1) - 1/2) * 1 / 111)),
              some (toFixed6 (0 + (((1 : ℚ) / ((2 : ℚ) - 1) - 1/2) * 1) / (111 * 1)))) :=
  ⟨(grid_rowmajor_rounded 0 0 1 1 2 (by norm_num) (by norm_num)).1,
   (grid_rowmajor_rounded 0 0 1 1 2 (by norm_num) (by norm_num)).2 1 1
     (by norm_num) (by norm_num)⟩

/-- **C1** counterexample to the claim as stated: at center (0,0), size 1,
grid 2, cos = 1 (exact at the equator), the generated pair for (0,0) is the
six-decimal rounding -901/200000, which differs from the exact
center-plus-offset value 0 + (0/(2-1) - 0.5)·1/111 = -1/222. -/
theorem grid_exact_counterexample :
    (generateGrid 0 0 1 1 (2 : ℤ))[0]?
      = some (some ((-901 : ℚ)/200000), some ((-901 : ℚ)/200000)) ∧
    ((-901 : ℚ)/200000) ≠ 0 + (((0 : ℚ) / ((2 : ℚ) - 1) - 1/2) * 1) / 111 := by
  constructor
  · simp only [generateGrid, gridPoint, jsDiv, toFixed6, round_eq,
      show ((2 : ℤ)).toNat = 2 from rfl, List.range_succ]
    norm_num
  · norm_num

/-! ## Claim C7: grid = 1 is not rejected -/

/-- **C7**: the worker never validates `grid ≥ 2`. With `?lat=0&lon=0&grid=1`
the parsed grid is 1 and the request is not rejected: the pipeline reaches
grid generation (a `gridGen` event), the offset division is `0/0` (NaN,
modelled `none`), and the single NaN location is sent upstream (an
`elevBatch` event); the request then fails downstream with a 500, not with a
validation of `grid = 1`. -/
theorem grid_one_not_rejected :
    parseGrid (some "1") = 1 ∧
    generateGrid 0 0 10 1 1 = [(none, none)] ∧
    (Ev.gridGen ∈ (workerFetch cosOne geoX elevNull none none (some "0") (some "0") none (some "1")).2 ∧
     Ev.elevBatch [(none, none)] ∈ (workerFetch cosOne geoX elevNull none none (some "0") (some "0") none (some "1")).2 ∧
     (workerFetch cosOne geoX elevNull none none (some "0") (some "0") none (some "1")).1.status = 500) := by
  refine ⟨by simp +decide [parseGrid, jsParseIntOpt, jsParseInt, parseSign, leadingDigits, natOfDigits, digitVal, jsOrZ], ?_, ?_⟩
  · simp [generateGrid, gridPoint, jsDiv, List.range_succ]
  · simp +decide [workerFetch, resolveCenter, truthy, cosOne, geoX, elevNull,
      parseSize, parseGrid, jsParseFloatOpt, jsParseIntOpt, jsParseFloat, jsParseInt,
      parseSign, leadingDigits, natOfDigits, digitVal, jsOrQ, jsOrZ, runMiss,
      computeTerrain, generateGrid, gridPoint, jsDiv, toFixed6, round_eq, elevLoop,
      elevLoopAux, numBatches, chunk, chunksOf, BATCH_SIZE, aggregate, processBatch,
      throwResponse, List.range_succ]

/-! ## Lemmas: batching recurrences (claims C2, C3, C4) -/

theorem numBatches_zero : numBatches 0 = 0 := rfl

theorem numBatches_pos_step (n : ℕ) (hn : 1 ≤ n) :
    numBatches n = numBatches (n - BATCH_SIZE) + 1 := by
  unfold numBatches BATCH_SIZE
  have h1 : n + 100 - 1 = (n - 1) + 100 := by omega
  rw [h1, Nat.add_div_right _ (by norm_num)]
  rcases Nat.lt_or_ge n 100 with h | h
  · have : n - 1 < 100 := by omega
    have : (n - 1) / 100 = 0 := Nat.div_eq_of_lt this
    have h0 : n - 100 = 0 := by omega
    simp [this, h0]
  · have h2 : n - 100 + 100 - 1 = n - 1 := by omega
    rw [h2]

theorem chunk_zero (l : List Coord) : chunk l 0 = l.take BATCH_SIZE := by
  simp [chunk]

theorem chunk_succ (l : List Coord) (k : ℕ) :
    chunk l (k + 1) = chunk (l.drop BATCH_SIZE) k := by
  unfold chunk
  rw [List.drop_drop]
  have h : BATCH_SIZE + BATCH_SIZE * k = BATCH_SIZE * (k + 1) := by ring
  rw [h]

theorem chunksOf_nil : chunksOf [] = [] := rfl

theorem chunksOf_cons (l : List Coord) (hl : l ≠ []) :
    chunksOf l = l.take BATCH_SIZE :: chunksOf (l.drop BATCH_SIZE) := by
  unfold chunksOf
  have hlen : 1 ≤ l.length := by
    cases l with
    | nil => exact absurd rfl hl
    | cons a t => simp
  rw [numBatches_pos_step l.length hlen, List.range_succ_eq_map]
  simp only [List.map_cons, List.map_map, chunk_zero]
  have hlen2 : numBatches (l.length - BATCH_SIZE) = numBatches (l.drop BATCH_SIZE).length := by
    rw [List.length_drop]
  rw [hlen2]
  congr 1
  apply List.map_congr_left
  intro k _
  simp [Function.comp_def, chunk_succ]

/-- The loop aborts iff it never runs out of work: the batch indices shifted
by one over `l` walk the chunks of `l.drop BATCH_SIZE`. -/
theorem elevLoopAux_shift (elev : List Coord → ElevResponse) (l : List Coord) :
    ∀ ks : List ℕ,
      elevLoopAux elev l (ks.map Nat.succ) = elevLoopAux elev (l.drop BATCH_SIZE) ks := by
  intro ks
  induction ks with
  | nil => rfl
  | cons k t ih =>
    simp only [List.map_cons, elevLoopAux]
    rw [show k.succ = k + 1 from rfl, chunk_succ]
    have hcond : (BATCH_SIZE * (k + 1) + BATCH_SIZE < l.length)
        ↔ (BATCH_SIZE * k + BATCH_SIZE < (l.drop BATCH_SIZE).length) := by
      rw [List.length_drop]
      unfold BATCH_SIZE
      omega
    simp only [hcond, ih]

theorem elevLoop_nil (elev : List Coord → ElevResponse) :
    elevLoop elev [] = ([], .ok []) := rfl

theorem elevLoop_cons (elev : List Coord → ElevResponse) (l : List Coord) (hl : l ≠ []) :
    elevLoop elev l =
      (let b := l.take BATCH_SIZE
       match processBatch (elev b) with
       | .error t => ([Ev.elevBatch b], .error t)
       | .ok es =>
         let dl := if BATCH_SIZE < l.length then [Ev.delay] else []
         let p := elevLoop elev (l.drop BATCH_SIZE)
         (Ev.elevBatch b :: (dl ++ p.1),
          match p.2 with
          | .error t => .error t
          | .ok rest => .ok (es ++ rest))) := by
  unfold elevLoop
  have hlen : 1 ≤ l.length := by
    cases l with
    | nil => exact absurd rfl hl
    | cons a t => simp
  rw [numBatches_pos_step l.length hlen, List.range_succ_eq_map]
  simp only [elevLoopAux, chunk_zero]
  rw [elevLoopAux_shift]
  have hlen2 : numBatches (l.length - BATCH_SIZE) = numBatches (l.drop BATCH_SIZE).length := by
    rw [List.length_drop]
  have hc : (BATCH_SIZE * 0 + BATCH_SIZE < l.length) ↔ (BATCH_SIZE < l.length) := by
    norm_num
  simp only [hlen2, hc]

theorem chunksOf_flatten_aux (n : ℕ) :
    ∀ l : List Coord, l.length ≤ n → (chunksOf l).flatten = l := by
  induction n with
  | zero =>
    intro l hl
    have h0 : l = [] := List.eq_nil_of_length_eq_zero (Nat.le_zero.mp hl)
    subst h0; rfl
  | succ n ih =>
    intro l hl
    by_cases h0 : l = []
    · subst h0; rfl
    · have h1 : 0 < l.length := List.length_pos.mpr h0
      have hd : (l.drop BATCH_SIZE).length ≤ n := by
        rw [List.length_drop]; unfold BATCH_SIZE; omega
      rw [chunksOf_cons l h0, List.flatten_cons, ih _ hd, List.take_append_drop]

/-- The batches partition the input: concatenating them gives it back. -/
theorem chunksOf_flatten (l : List Coord) : (chunksOf l).flatten = l :=
  chunksOf_flatten_aux l.length l le_rfl

/-- Every batch respects the upstream bound of `BATCH_SIZE` coordinates. -/
theorem chunksOf_length_le (l : List Coord) : ∀ b ∈ chunksOf l, b.length ≤ BATCH_SIZE := by
  intro b hb
  rcases List.mem_map.mp hb with ⟨k, _, rfl⟩
  unfold chunk
  rw [List.length_take]
  omega

/-- No batch is empty. -/
theorem chunksOf_ne_nil (l : List Coord) : ∀ b ∈ chunksOf l, b ≠ [] := by
  intro b hb
  rcases List.mem_map.mp hb with ⟨k, hk, rfl⟩
  rw [List.mem_range] at hk
  unfold numBatches BATCH_SIZE at hk
  have h1 : (k + 1) * 100 ≤ ((l.length + 100 - 1) / 100) * 100 :=
    Nat.mul_le_mul_right 100 (by omega)
  have h2 : ((l.length + 100 - 1) / 100) * 100 ≤ l.length + 100 - 1 :=
    Nat.div_mul_le_self _ _
  have hlt : 100 * k < l.length := by omega
  unfold chunk BATCH_SIZE
  intro hnil
  have hlen := congrArg List.length hnil
  rw [List.length_take, List.length_drop] at hlen
  simp only [List.length_nil] at hlen
  omega

theorem elevLoop_ok_aux (elev : List Coord → ElevResponse)
    (f : List Coord → List Sample) (n : ℕ) :
    ∀ l : List Coord, l.length ≤ n →
      (∀ b ∈ chunksOf l, processBatch (elev b) = .ok (f b)) →
      (elevLoop elev l).1 = List.intersperse Ev.delay ((chunksOf l).map Ev.elevBatch) ∧
      (elevLoop elev l).2 = .ok ((chunksOf l).map f).flatten := by
  induction n with
  | zero =>
    intro l hl _
    have h0 : l = [] := List.eq_nil_of_length_eq_zero (Nat.le_zero.mp hl)
    subst h0
    exact ⟨rfl, rfl⟩
  | succ n ih =>
    intro l hl hok
    by_cases h0 : l = []
    · subst h0; exact ⟨rfl, rfl⟩
    · have h1 : 0 < l.length := List.length_pos.mpr h0
      have hmem : l.take BATCH_SIZE ∈ chunksOf l := by
        rw [chunksOf_cons l h0]; exact List.mem_cons_self _ _
      have hfirst := hok _ hmem
      have hd : (l.drop BATCH_SIZE).length ≤ n := by
        rw [List.length_drop]; unfold BATCH_SIZE; omega
      have hok' : ∀ b ∈ chunksOf (l.drop BATCH_SIZE), processBatch (elev b) = .ok (f b) := by
        intro b hb
        apply hok
        rw [chunksOf_cons l h0]
        exact List.mem_cons_of_mem _ hb
      obtain ⟨ih1, ih2⟩ := ih _ hd hok'
      rw [elevLoop_cons elev l h0]
      simp only [hfirst]
      rw [chunksOf_cons l h0]
      by_cases hmore : BATCH_SIZE < l.length
      · have hdrop_ne : l.drop BATCH_SIZE ≠ [] := by
          intro hh
          have := congrArg List.length hh
          rw [List.length_drop] at this
          simp only [List.length_nil] at this
          omega
        have hch : chunksOf (l.drop BATCH_SIZE) ≠ [] := by
          rw [chunksOf_cons _ hdrop_ne]; simp
        constructor
        · cases hc : chunksOf (l.drop BATCH_SIZE) with
          | nil => exact absurd hc hch
          | cons c cs =>
            rw [if_pos hmore]
            simp only [ih1, hc, List.map_cons]
            rfl
        · simp [ih2, List.flatten_cons]
      · have hdrop : l.drop BATCH_SIZE = [] := by
          rw [List.drop_eq_nil_iff]
          omega
        rw [if_neg hmore, hdrop]
        simp [elevLoop_nil, chunksOf_nil]

/-- Success case of the batch loop: the event trace is the batch calls, in
batch order, with exactly one pacing delay between consecutive calls and no
delay after the last; the returned samples are the per-batch replies
concatenated in batch order. -/
theorem elevLoop_ok (elev : List Coord → ElevResponse) (f : List Coord → List Sample)
    (l : List Coord) (hok : ∀ b ∈ chunksOf l, processBatch (elev b) = .ok (f b)) :
    (elevLoop elev l).1 = List.intersperse Ev.delay ((chunksOf l).map Ev.elevBatch) ∧
    (elevLoop elev l).2 = .ok ((chunksOf l).map f).flatten :=
  elevLoop_ok_aux elev f l.length l le_rfl hok

theorem isDelayEv_of_isBatchEv (y : Ev) (h : isBatchEv y = true) : isDelayEv y = false := by
  cases y <;> simp_all [isBatchEv, isDelayEv]

/-- Counting batch and delay events in an interspersed trace. -/
theorem countP_intersperse (ys : List Ev) (hy : ∀ y ∈ ys, isBatchEv y = true) :
    (List.intersperse Ev.delay ys).countP isBatchEv = ys.length ∧
    (List.intersperse Ev.delay ys).countP isDelayEv = ys.length - 1 := by
  induction ys with
  | nil => simp
  | cons a t ih =>
    have ha : isBatchEv a = true := hy a (List.mem_cons_self _ _)
    have had : isDelayEv a = false := isDelayEv_of_isBatchEv a ha
    cases t with
    | nil => simp [List.countP_cons, ha, had]
    | cons b t' =>
      have ht : ∀ y ∈ b :: t', isBatchEv y = true := fun y hy' => hy y (List.mem_cons_of_mem _ hy')
      obtain ⟨c1, c2⟩ := ih ht
      have hstep : List.intersperse Ev.delay (a :: b :: t') =
          a :: Ev.delay :: List.intersperse Ev.delay (b :: t') := rfl
      rw [hstep]
      simp only [List.countP_cons, c1, c2, ha, had]
      simp [isBatchEv, isDelayEv]

theorem elevLoop_ok_length_aux (elev : List Coord → ElevResponse)
    (hlen : ∀ b es, processBatch (elev b) = .ok es → es.length = b.length) (n : ℕ) :
    ∀ l : List Coord, l.length ≤ n →
      ∀ out, (elevLoop elev l).2 = .ok out → out.length = l.length := by
  induction n with
  | zero =>
    intro l hl out hout
    have h0 : l = [] := List.eq_nil_of_length_eq_zero (Nat.le_zero.mp hl)
    subst h0
    simp [elevLoop_nil] at hout
    subst hout
    rfl
  | succ n ih =>
    intro l hl out hout
    by_cases h0 : l = []
    · subst h0
      simp [elevLoop_nil] at hout
      subst hout
      rfl
    · have h1 : 0 < l.length := List.length_pos.mpr h0
      have hd : (l.drop BATCH_SIZE).length ≤ n := by
        rw [List.length_drop]; unfold BATCH_SIZE; omega
      rw [elevLoop_cons elev l h0] at hout
      rcases hpb : processBatch (elev (l.take BATCH_SIZE)) with t | es
      · simp only [hpb] at hout
        exact Except.noConfusion hout
      · simp only [hpb] at hout
        rcases hrec : (elevLoop elev (l.drop BATCH_SIZE)).2 with t2 | rest
        · simp only [hrec] at hout
          exact Except.noConfusion hout
        · simp only [hrec, Except.ok.injEq] at hout
          subst hout
          have hr := ih _ hd rest hrec
          have he := hlen _ _ hpb
          rw [List.length_append, he, List.length_take, hr, List.length_drop]
          omega

/-- When the upstream returns one sample per coordinate in each batch, a
successful fetch returns exactly one sample per input coordinate. -/
theorem elevLoop_ok_length (elev : List Coord → ElevResponse)
    (hlen : ∀ b es, processBatch (elev b) = .ok es → es.length = b.length)
    (l : List Coord) (out : List Sample) (hout : (elevLoop elev l).2 = .ok out) :
    out.length = l.length :=
  elevLoop_ok_length_aux elev hlen l.length l le_rfl out hout

theorem elevLoop_error_of_mem_aux (elev : List Coord → ElevResponse) (n : ℕ) :
    ∀ l : List Coord, l.length ≤ n →
      (∃ b ∈ chunksOf l, ∃ t, processBatch (elev b) = .error t) →
      ∃ t, (elevLoop elev l).2 = .error t := by
  induction n with
  | zero =>
    intro l hl hex
    have h0 : l = [] := List.eq_nil_of_length_eq_zero (Nat.le_zero.mp hl)
    subst h0
    simp [chunksOf_nil] at hex
  | succ n ih =>
    intro l hl hex
    by_cases h0 : l = []
    · subst h0; simp [chunksOf_nil] at hex
    · have h1 : 0 < l.length := List.length_pos.mpr h0
      have hd : (l.drop BATCH_SIZE).length ≤ n := by
        rw [List.length_drop]; unfold BATCH_SIZE; omega
      obtain ⟨b, hb, t, hbt⟩ := hex
      rw [chunksOf_cons l h0] at hb
      rcases hpb : processBatch (elev (l.take BATCH_SIZE)) with t1 | es
      · refine ⟨t1, ?_⟩
        rw [elevLoop_cons elev l h0]
        simp only [hpb]
      · rcases List.mem_cons.mp hb with rfl | hb'
        · rw [hpb] at hbt; exact absurd hbt (by simp)
        · obtain ⟨t2, ht2⟩ := ih _ hd ⟨b, hb', t, hbt⟩
          refine ⟨t2, ?_⟩
          rw [elevLoop_cons elev l h0]
          simp only [hpb, ht2]

/-- If some batch's reply is non-success or malformed, the whole fetch
aborts with a thrown error. -/
theorem elevLoop_error_of_mem (elev : List Coord → ElevResponse) (l : List Coord)
    (hex : ∃ b ∈ chunksOf l, ∃ t, processBatch (elev b) = .error t) :
    ∃ t, (elevLoop elev l).2 = .error t :=
  elevLoop_error_of_mem_aux elev l.length l le_rfl hex

theorem batchCalls_append (evs evs' : List Ev) :
    batchCalls (evs ++ evs') = batchCalls evs ++ batchCalls evs' := by
  simp [batchCalls]

theorem batchCalls_elevLoop_prefix_aux (elev : List Coord → ElevResponse) (n : ℕ) :
    ∀ l : List Coord, l.length ≤ n →
      batchCalls (elevLoop elev l).1 <+: chunksOf l := by
  induction n with
  | zero =>
    intro l hl
    have h0 : l = [] := List.eq_nil_of_length_eq_zero (Nat.le_zero.mp hl)
    subst h0
    simp [elevLoop_nil, chunksOf_nil, batchCalls]
  | succ n ih =>
    intro l hl
    by_cases h0 : l = []
    · subst h0; simp [elevLoop_nil, chunksOf_nil, batchCalls]
    · have h1 : 0 < l.length := List.length_pos.mpr h0
      have hd : (l.drop BATCH_SIZE).length ≤ n := by
        rw [List.length_drop]; unfold BATCH_SIZE; omega
      rw [elevLoop_cons elev l h0, chunksOf_cons l h0]
      rcases hpb : processBatch (elev (l.take BATCH_SIZE)) with t | es
      · simp only [hpb]
        exact ⟨chunksOf (l.drop BATCH_SIZE), by simp [batchCalls]⟩
      · simp only [hpb]
        have hdl : ∀ dl : List Ev, dl = [] ∨ dl = [Ev.delay] →
            batchCalls (Ev.elevBatch (l.take BATCH_SIZE) :: (dl ++ (elevLoop elev (l.drop BATCH_SIZE)).1))
              = l.take BATCH_SIZE :: batchCalls (elevLoop elev (l.drop BATCH_SIZE)).1 := by
          intro dl hcase
          rcases hcase with rfl | rfl <;> simp [batchCalls]
        rw [hdl _ (by split <;> simp)]
        obtain ⟨r, hr⟩ := ih _ hd
        exact ⟨r, by rw [List.cons_append, hr]⟩

theorem chunksOf_length (l : List Coord) :
    (chunksOf l).length = numBatches l.length := by
  simp [chunksOf]

/-! ## Claim C2: sequential batching -/

/-- **C2**: the Elevation Fetcher partitions the input into contiguous
batches of at most 100 coordinates preserving input order (their
concatenation is the input), issues one call per batch in batch order (the
trace is the batch calls with delays interspersed — the loop is sequential,
each call `await`ed before the next), inserts the pacing delay between
consecutive batch calls and not after the last (the trace is exactly
`intersperse delay`), and concatenates the batch outputs in batch order; for
1600 sample points (`grid = 40`) exactly 16 batch calls and 15 delays occur. -/
theorem elevation_batching (elev : List Coord → ElevResponse) (l : List Coord)
    (f : List Coord → List Sample)
    (hok : ∀ b ∈ chunksOf l, processBatch (elev b) = .ok (f b)) :
    (chunksOf l).flatten = l ∧
    (∀ b ∈ chunksOf l, b.length ≤ BATCH_SIZE ∧ b ≠ []) ∧
    (elevLoop elev l).1 = List.intersperse Ev.delay ((chunksOf l).map Ev.elevBatch) ∧
    (elevLoop elev l).2 = .ok ((chunksOf l).map f).flatten ∧
    (l.length = 1600 →
      (elevLoop elev l).1.countP isBatchEv = 16 ∧
      (elevLoop elev l).1.countP isDelayEv = 15) := by
  obtain ⟨htr, hres⟩ := elevLoop_ok elev f l hok
  refine ⟨chunksOf_flatten l,
    fun b hb => ⟨chunksOf_length_le l b hb, chunksOf_ne_nil l b hb⟩, htr, hres, ?_⟩
  intro h1600
  have hall : ∀ y ∈ (chunksOf l).map Ev.elevBatch, isBatchEv y = true := by
    intro y hy
    rcases List.mem_map.mp hy with ⟨b, _, rfl⟩
    rfl
  obtain ⟨hcb, hcd⟩ := countP_intersperse ((chunksOf l).map Ev.elevBatch) hall
  rw [htr, hcb, hcd, List.length_map, chunksOf_length, h1600]
  constructor <;> rfl

/-- Witness for `elevation_batching`: 1600 constant points and a constant
upstream produce 16 batch events and 15 delays. -/
theorem elevation_batching_witness :
    (List.replicate 1600 ((none, none) : Coord)).length = 1600 ∧
    (elevLoop elevConst5 (List.replicate 1600 ((none, none) : Coord))).1.countP isBatchEv = 16 ∧
    (elevLoop elevConst5 (List.replicate 1600 ((none, none) : Coord))).1.countP isDelayEv = 15 := by
  have hb := (elevation_batching elevConst5 (List.replicate 1600 ((none, none) : Coord))
      (fun b => b.map (fun _ => some 5))
      (by intro b _; simp [processBatch, elevConst5])).2.2.2.2
      (by rw [List.length_replicate])
  exact ⟨by rw [List.length_replicate], hb.1, hb.2⟩

/-! ## Lemmas: aggregation (claims C3, C6) -/

theorem foldl_min_le (xs : List ℚ) : ∀ a : ℚ, xs.foldl min a ≤ a := by
  induction xs with
  | nil => intro a; exact le_refl a
  | cons y t ih =>
    intro a
    calc (y :: t).foldl min a = t.foldl min (min a y) := rfl
    _ ≤ min a y := ih (min a y)
    _ ≤ a := min_le_left a y

theorem foldl_min_le_mem (xs : List ℚ) : ∀ (a x : ℚ), x ∈ xs → xs.foldl min a ≤ x := by
  induction xs with
  | nil => intro a x hx; exact absurd hx (List.not_mem_nil x)
  | cons y t ih =>
    intro a x hx
    rcases List.mem_cons.mp hx with rfl | hx'
    · calc (x :: t).foldl min a = t.foldl min (min a x) := rfl
      _ ≤ min a x := foldl_min_le t (min a x)
      _ ≤ x := min_le_right a x
    · exact ih (min a y) x hx'

theorem foldl_min_mem (xs : List ℚ) : ∀ a : ℚ, xs.foldl min a = a ∨ xs.foldl min a ∈ xs := by
  induction xs with
  | nil => intro a; left; rfl
  | cons y t ih =>
    intro a
    rcases ih (min a y) with h | h
    · rcases min_choice a y with h2 | h2
      · left; rw [show (y :: t).foldl min a = t.foldl min (min a y) from rfl, h, h2]
      · right
        rw [show (y :: t).foldl min a = t.foldl min (min a y) from rfl, h, h2]
        exact List.mem_cons_self y t
    · right
      exact List.mem_cons_of_mem y h
  
theorem foldl_max_ge (xs : List ℚ) : ∀ a : ℚ, a ≤ xs.foldl max a := by
  induction xs with
  | nil => intro a; exact le_refl a
  | cons y t ih =>
    intro a
    calc a ≤ max a y := le_max_left a y
    _ ≤ t.foldl max (max a y) := ih (max a y)
    _ = (y :: t).foldl max a := rfl

theorem foldl_max_ge_mem (xs : List ℚ) : ∀ (a x : ℚ), x ∈ xs → x ≤ xs.foldl max a := by
  induction xs with
  | nil => intro a x hx; exact absurd hx (List.not_mem_nil x)
  | cons y t ih =>
    intro a x hx
    rcases List.mem_cons.mp hx with rfl | hx'
    · calc x ≤ max a x := le_max_right a x
      _ ≤ t.foldl max (max a x) := foldl_max_ge t (max a x)
      _ = (x :: t).foldl max a := rfl
    · exact ih (max a y) x hx'

theorem foldl_max_mem (xs : List ℚ) : ∀ a : ℚ, xs.foldl max a = a ∨ xs.foldl max a ∈ xs := by
  induction xs with
  | nil => intro a; left; rfl
  | cons y t ih =>
    intro a
    rcases ih (max a y) with h | h
    · rcases max_choice a y with h2 | h2
      · left; rw [show (y :: t).foldl max a = t.foldl max (max a y) from rfl, h, h2]
      · right
        rw [show (y :: t).foldl max a = t.foldl max (max a y) from rfl, h, h2]
        exact List.mem_cons_self y t
    · right
      exact List.mem_cons_of_mem y h

/-- On success the aggregate returns the attained minimum and maximum of the
valid (numeric) samples. -/
theorem aggregate_ok (elevs : List Sample) (mn mx : ℚ)
    (h : aggregate elevs = .ok (mn, mx)) :
    mn ∈ elevs.filterMap id ∧ mx ∈ elevs.filterMap id ∧
    ∀ x ∈ elevs.filterMap id, mn ≤ x ∧ x ≤ mx := by
  unfold aggregate at h
  rcases hv : elevs.filterMap id with _ | ⟨v, vs⟩
  · rw [hv] at h; exact Except.noConfusion h
  · rw [hv] at h
    simp only [Except.ok.injEq, Prod.mk.injEq] at h
    obtain ⟨hmn, hmx⟩ := h
    subst hmn hmx
    refine ⟨?_, ?_, ?_⟩
    · rcases foldl_min_mem vs v with h | h
      · rw [h]; exact List.mem_cons_self v vs
      · exact List.mem_cons_of_mem v h
    · rcases foldl_max_mem vs v with h | h
      · rw [h]; exact List.mem_cons_self v vs
      · exact List.mem_cons_of_mem v h
    · intro x hx
      rcases List.mem_cons.mp hx with rfl | hx'
      · exact ⟨foldl_min_le vs x, foldl_max_ge vs x⟩
      · exact ⟨foldl_min_le_mem vs v x hx', foldl_max_ge_mem vs v x hx'⟩

/-- The aggregate throws exactly when no sample is valid. -/
theorem aggregate_error_iff (elevs : List Sample) :
    (∃ t, aggregate elevs = .error t) ↔ elevs.filterMap id = [] := by
  unfold aggregate
  rcases hv : elevs.filterMap id with _ | ⟨v, vs⟩
  · simp
  · simp

/-! ## Lemmas: pipeline and handler inversion -/

theorem computeTerrain_ok (cosFn : ℚ → ℚ) (elev : List Coord → ElevResponse)
    (centerLat centerLon size : ℚ) (grid : ℤ) (name : String) (r : TerrainResult)
    (h : (computeTerrain cosFn elev centerLat centerLon size grid name).2 = .ok r) :
    ∃ out, (elevLoop elev (generateGrid centerLat centerLon size (cosFn centerLat) grid)).2 = .ok out ∧
      r.elevations = out ∧ aggregate out = .ok (r.minElev, r.maxElev) ∧
      r.grid = grid ∧ r.center = (centerLat, centerLon) ∧ r.name = name := by
  unfold computeTerrain at h
  rcases hel : (elevLoop elev (generateGrid centerLat centerLon size (cosFn centerLat) grid)).2 with t | out
  · simp only [hel] at h
    exact Except.noConfusion h
  · simp only [hel] at h
    rcases hag : aggregate out with t | mm
    · simp only [hag] at h
      exact Except.noConfusion h
    · simp only [hag, Except.ok.injEq] at h
      subst h
      exact ⟨out, rfl, rfl, by rw [hag], rfl, rfl, rfl⟩

theorem resolveCenter_early (geo : String → GeoResponse) (q lat lon : Option String)
    (evs : List Ev) (r : HttpResponse)
    (h : resolveCenter geo q lat lon = (evs, .early r)) :
    r = notFoundResponse ∨ r = missingParamsResponse := by
  unfold resolveCenter at h
  by_cases h1 : truthy q = true
  · rw [if_pos h1] at h
    rcases h2 : (geo (q.getD "")).ok with _ | _
    · simp only [h2, if_true, Prod.mk.injEq] at h
      exact absurd h.2 (by intro hh; exact ResolveOut.noConfusion hh)
    · simp only [h2] at h
      simp only [show ¬ (true = false) from by simp, if_false, Prod.mk.injEq] at h
      rcases h3 : (geo (q.getD "")).body with _ | ⟨c, cs⟩
      · rw [h3] at h
        left
        exact (ResolveOut.early.inj h.2).symm
      · rw [h3] at h
        exact absurd h.2 (by intro hh; exact ResolveOut.noConfusion hh)
  · rw [if_neg h1] at h
    by_cases h4 : (truthy lat && truthy lon) = true
    · rw [if_pos h4] at h
      exact absurd (Prod.mk.injEq .. ▸ h).2 (by intro hh; exact ResolveOut.noConfusion hh)
    · rw [if_neg h4] at h
      right
      exact (ResolveOut.early.inj (Prod.mk.inj h).2).symm

theorem workerFetch_early (cosFn : ℚ → ℚ) (geo : String → GeoResponse)
    (elev : List Coord → ElevResponse) (cache : Option CacheStore)
    (q lat lon sizeS gridS : Option String) (evs : List Ev) (r : HttpResponse)
    (h : resolveCenter geo q lat lon = (evs, .early r)) :
    workerFetch cosFn geo elev cache q lat lon sizeS gridS = (r, evs) := by
  unfold workerFetch
  rw [h]

theorem workerFetch_thrown (cosFn : ℚ → ℚ) (geo : String → GeoResponse)
    (elev : List Coord → ElevResponse) (cache : Option CacheStore)
    (q lat lon sizeS gridS : Option String) (evs : List Ev) (t : Thrown)
    (h : resolveCenter geo q lat lon = (evs, .thrown t)) :
    workerFetch cosFn geo elev cache q lat lon sizeS gridS = (throwResponse t, evs) := by
  unfold workerFetch
  rw [h]

theorem workerFetch_hit (cosFn : ℚ → ℚ) (geo : String → GeoResponse)
    (elev : List Coord → ElevResponse) (store : CacheStore)
    (q lat lon sizeS gridS : Option String) (evs : List Ev)
    (centerLat centerLon : ℚ) (name : String) (r : TerrainResult)
    (hres : resolveCenter geo q lat lon = (evs, .center (some centerLat) (some centerLon) name))
    (hhit : store (cacheKey centerLat centerLon (parseSize sizeS) (parseGrid gridS)) = some r) :
    workerFetch cosFn geo elev (some store) q lat lon sizeS gridS
      = (⟨200, .resultBody r true⟩,
         evs ++ [Ev.cacheGet (cacheKey centerLat centerLon (parseSize sizeS) (parseGrid gridS))]) := by
  unfold workerFetch
  rw [hres]
  simp only [hhit]

theorem workerFetch_miss_store (cosFn : ℚ → ℚ) (geo : String → GeoResponse)
    (elev : List Coord → ElevResponse) (store : CacheStore)
    (q lat lon sizeS gridS : Option String) (evs : List Ev)
    (centerLat centerLon : ℚ) (name : String)
    (hres : resolveCenter geo q lat lon = (evs, .center (some centerLat) (some centerLon) name))
    (hmiss : store (cacheKey centerLat centerLon (parseSize sizeS) (parseGrid gridS)) = none) :
    workerFetch cosFn geo elev (some store) q lat lon sizeS gridS
      = runMiss cosFn elev
          (some (cacheKey centerLat centerLon (parseSize sizeS) (parseGrid gridS)))
          centerLat centerLon (parseSize sizeS) (parseGrid gridS) name
          (evs ++ [Ev.cacheGet (cacheKey centerLat centerLon (parseSize sizeS) (parseGrid gridS))]) := by
  unfold workerFetch
  rw [hres]
  simp only [hmiss]

theorem workerFetch_miss_nocache (cosFn : ℚ → ℚ) (geo : String → GeoResponse)
    (elev : List Coord → ElevResponse)
    (q lat lon sizeS gridS : Option String) (evs : List Ev)
    (centerLat centerLon : ℚ) (name : String)
    (hres : resolveCenter geo q lat lon = (evs, .center (some centerLat) (some centerLon) name)) :
    workerFetch cosFn geo elev none q lat lon sizeS gridS
      = runMiss cosFn elev none centerLat centerLon (parseSize sizeS) (parseGrid gridS) name evs := by
  unfold workerFetch
  rw [hres]

theorem workerFetch_invalid (cosFn : ℚ → ℚ) (geo : String → GeoResponse)
    (elev : List Coord → ElevResponse) (cache : Option CacheStore)
    (q lat lon sizeS gridS : Option String) (evs : List Ev)
    (oLat oLon : Option ℚ) (name : String)
    (hres : resolveCenter geo q lat lon = (evs, .center oLat oLon name))
    (hnan : oLat = none ∨ oLon = none) :
    workerFetch cosFn geo elev cache q lat lon sizeS gridS = (invalidCoordsResponse, evs) := by
  unfold workerFetch
  rw [hres]
  rcases hnan with rfl | rfl
  · rfl
  · cases oLat with
    | none => rfl
    | some a => rfl

theorem runMiss_of_error (cosFn : ℚ → ℚ) (elev : List Coord → ElevResponse)
    (putKey : Option CacheKey) (centerLat centerLon size : ℚ) (grid : ℤ)
    (name : String) (evs : List Ev) (t : Thrown)
    (hct : (computeTerrain cosFn elev centerLat centerLon size grid name).2 = .error t) :
    runMiss cosFn elev putKey centerLat centerLon size grid name evs
      = (throwResponse t,
         evs ++ (computeTerrain cosFn elev centerLat centerLon size grid name).1) := by
  unfold runMiss
  simp only [hct]

theorem runMiss_of_ok (cosFn : ℚ → ℚ) (elev : List Coord → ElevResponse)
    (putKey : Option CacheKey) (centerLat centerLon size : ℚ) (grid : ℤ)
    (name : String) (evs : List Ev) (r : TerrainResult)
    (hct : (computeTerrain cosFn elev centerLat centerLon size grid name).2 = .ok r) :
    runMiss cosFn elev putKey centerLat centerLon size grid name evs
      = (⟨200, .resultBody r false⟩,
         evs ++ (computeTerrain cosFn elev centerLat centerLon size grid name).1
             ++ (match putKey with
                 | some k => [Ev.cachePut k r]
                 | none => [])) := by
  unfold runMiss
  simp only [hct]

theorem runMiss_fst_ok (cosFn : ℚ → ℚ) (elev : List Coord → ElevResponse)
    (putKey : Option CacheKey) (centerLat centerLon size : ℚ) (grid : ℤ)
    (name : String) (evs : List Ev) (r : TerrainResult)
    (h : (runMiss cosFn elev putKey centerLat centerLon size grid name evs).1
          = ⟨200, .resultBody r false⟩) :
    (computeTerrain cosFn elev centerLat centerLon size grid name).2 = .ok r := by
  rcases hct : (computeTerrain cosFn elev centerLat centerLon size grid name).2 with t | r'
  · rw [runMiss_of_error cosFn elev putKey centerLat centerLon size grid name evs t hct] at h
    simp [throwResponse] at h
  · rw [runMiss_of_ok cosFn elev putKey centerLat centerLon size grid name evs r' hct] at h
    simp only [HttpResponse.mk.injEq, Body.resultBody.injEq] at h
    rw [h.2.1]

/-- Any 200 response whose body is an uncached result comes from the
cache-miss pipeline succeeding on the resolved center. -/
theorem workerFetch_ok_inversion (cosFn : ℚ → ℚ) (geo : String → GeoResponse)
    (elev : List Coord → ElevResponse) (cache : Option CacheStore)
    (q lat lon sizeS gridS : Option String) (r : TerrainResult)
    (h : (workerFetch cosFn geo elev cache q lat lon sizeS gridS).1
          = ⟨200, .resultBody r false⟩) :
    ∃ centerLat centerLon name evs,
      resolveCenter geo q lat lon = (evs, .center (some centerLat) (some centerLon) name) ∧
      (computeTerrain cosFn elev centerLat centerLon (parseSize sizeS) (parseGrid gridS) name).2 = .ok r := by
  rcases hrc : resolveCenter geo q lat lon with ⟨evs, ro⟩
  cases ro with
  | early resp =>
    rw [workerFetch_early cosFn geo elev cache q lat lon sizeS gridS evs resp hrc] at h
    rcases resolveCenter_early geo q lat lon evs resp hrc with rfl | rfl
    · simp [notFoundResponse] at h
    · simp [missingParamsResponse] at h
  | thrown t =>
    rw [workerFetch_thrown cosFn geo elev cache q lat lon sizeS gridS evs t hrc] at h
    simp [throwResponse] at h
  | center oLat oLon name =>
    cases oLat with
    | none =>
      rw [workerFetch_invalid cosFn geo elev cache q lat lon sizeS gridS evs none oLon name hrc (Or.inl rfl)] at h
      simp [invalidCoordsResponse] at h
    | some centerLat =>
      cases oLon with
      | none =>
        rw [workerFetch_invalid cosFn geo elev cache q lat lon sizeS gridS evs (some centerLat) none name hrc (Or.inr rfl)] at h
        simp [invalidCoordsResponse] at h
      | some centerLon =>
        cases cache with
        | none =>
          rw [workerFetch_miss_nocache cosFn geo elev q lat lon sizeS gridS evs centerLat centerLon name hrc] at h
          exact ⟨centerLat, centerLon, name, evs, rfl,
            runMiss_fst_ok cosFn elev none centerLat centerLon _ _ name evs r h⟩
        | some store =>
          rcases hst : store (cacheKey centerLat centerLon (parseSize sizeS) (parseGrid gridS)) with _ | rc
          · rw [workerFetch_miss_store cosFn geo elev store q lat lon sizeS gridS evs centerLat centerLon name hrc hst] at h
            exact ⟨centerLat, centerLon, name, evs, rfl,
              runMiss_fst_ok cosFn elev _ centerLat centerLon _ _ name _ r h⟩
          · rw [workerFetch_hit cosFn geo elev store q lat lon sizeS gridS evs centerLat centerLon name rc hrc hst] at h
            simp at h

/-! ## Claim C3: result invariants -/

/-- **C3**: for every request answered 200 with an uncached body — under the
upstream contract that each successful batch reply carries one sample per
requested coordinate — the returned result satisfies
`elevations.length = grid * grid` (with `grid` the result's grid field, the
parsed request parameter) and every valid sample `x` satisfies
`minElev ≤ x ≤ maxElev`. -/
theorem result_invariants (cosFn : ℚ → ℚ) (geo : String → GeoResponse)
    (elev : List Coord → ElevResponse) (cache : Option CacheStore)
    (q lat lon sizeS gridS : Option String) (r : TerrainResult)
    (hlen : ∀ b es, processBatch (elev b) = .ok es → es.length = b.length)
    (h : (workerFetch cosFn geo elev cache q lat lon sizeS gridS).1
          = ⟨200, .resultBody r false⟩) :
    (r.elevations.length : ℤ) = r.grid * r.grid ∧
    ∀ x ∈ r.elevations.filterMap id, r.minElev ≤ x ∧ x ≤ r.maxElev := by
  obtain ⟨a, b, nm, evs, hres, hct⟩ :=
    workerFetch_ok_inversion cosFn geo elev cache q lat lon sizeS gridS r h
  obtain ⟨out, hel, helev, hagg, hgrid, _, _⟩ :=
    computeTerrain_ok cosFn elev a b (parseSize sizeS) (parseGrid gridS) nm r hct
  constructor
  · have h1 : out.length
        = (generateGrid a b (parseSize sizeS) (cosFn a) (parseGrid gridS)).length :=
      elevLoop_ok_length elev hlen _ out hel
    have hne : out.filterMap id ≠ [] := by
      intro hnil
      obtain ⟨t, ht⟩ := (aggregate_error_iff out).mpr hnil
      rw [ht] at hagg
      exact Except.noConfusion hagg
    have hpos : 0 < out.length := by
      rcases out with _ | ⟨x, xs⟩
      · simp at hne
      · simp
    rw [helev, hgrid, h1, generateGrid_length]
    rw [h1, generateGrid_length] at hpos
    have h0 : 0 < (parseGrid gridS).toNat := by
      rcases Nat.eq_zero_or_pos (parseGrid gridS).toNat with hz | hp
      · rw [hz] at hpos; simp at hpos
      · exact hp
    have hg0 : 0 ≤ parseGrid gridS := by
      by_contra hneg
      push_neg at hneg
      have : (parseGrid gridS).toNat = 0 := Int.toNat_of_nonpos (le_of_lt hneg)
      omega
    push_cast [Int.toNat_of_nonneg hg0]
    ring
  · intro x hx
    rw [helev] at hx
    obtain ⟨_, _, hall⟩ := aggregate_ok out r.minElev r.maxElev hagg
    exact hall x hx

/-- Concrete successful request used as a witness. -/
def r0 : TerrainResult := ⟨"X", (1, 2), [some 5, some 5, some 5, some 5], 5, 5, 2⟩

/-- Witness for `result_invariants`: explicit size 1 km, grid 2 request
against the constant 5 m upstream. -/
theorem result_invariants_witness :
    (r0.elevations.length : ℤ) = r0.grid * r0.grid ∧
    (r0.minElev ≤ 5 ∧ (5 : ℚ) ≤ r0.maxElev) := by
  have happ := result_invariants cosOne geoX elevConst5 none (some "x") none none
    (some "1") (some "2") r0
    (by intro b es h
        simp [processBatch, elevConst5] at h
        rw [← h]
        simp)
    (by simp +decide [workerFetch, resolveCenter, truthy, cosOne, geoX, elevConst5,
      parseSize, parseGrid, jsParseFloatOpt, jsParseIntOpt, jsParseFloat, jsParseInt,
      parseSign, leadingDigits, natOfDigits, digitVal, jsOrQ, jsOrZ, runMiss,
      computeTerrain, generateGrid, gridPoint, jsDiv, toFixed6, round_eq, elevLoop,
      elevLoopAux, numBatches, chunk, chunksOf, BATCH_SIZE, aggregate, processBatch,
      r0, List.range_succ])
  exact ⟨happ.1, happ.2 5 (by norm_num [r0])⟩

theorem batchCalls_elevLoop_prefix (elev : List Coord → ElevResponse) (l : List Coord) :
    batchCalls (elevLoop elev l).1 <+: chunksOf l :=
  batchCalls_elevLoop_prefix_aux elev l.length l le_rfl

/-- The resolution section emits at most the geocoding call. -/
theorem resolveCenter_trace (geo : String → GeoResponse) (q lat lon : Option String) :
    (resolveCenter geo q lat lon).1 = [] ∨
    (resolveCenter geo q lat lon).1 = [Ev.geocode (q.getD "")] := by
  unfold resolveCenter
  by_cases h1 : truthy q = true
  · right; simp [h1]
  · left
    simp only [h1]
    by_cases h4 : (truthy lat && truthy lon) = true <;> simp [h4]

theorem elevLoop_trace_shape_aux (elev : List Coord → ElevResponse) (n : ℕ) :
    ∀ l : List Coord, l.length ≤ n →
      ∀ e ∈ (elevLoop elev l).1, isBatchEv e = true ∨ e = Ev.delay := by
  induction n with
  | zero =>
    intro l hl e he
    have h0 : l = [] := List.eq_nil_of_length_eq_zero (Nat.le_zero.mp hl)
    subst h0
    simp [elevLoop_nil] at he
  | succ n ih =>
    intro l hl e he
    by_cases h0 : l = []
    · subst h0; simp [elevLoop_nil] at he
    · have h1 : 0 < l.length := List.length_pos.mpr h0
      have hd : (l.drop BATCH_SIZE).length ≤ n := by
        rw [List.length_drop]; unfold BATCH_SIZE; omega
      rw [elevLoop_cons elev l h0] at he
      rcases hpb : processBatch (elev (l.take BATCH_SIZE)) with t | es
      · simp only [hpb] at he
        rcases List.mem_cons.mp he with rfl | he'
        · left; rfl
        · simp at he'
      · simp only [hpb] at he
        rcases List.mem_cons.mp he with rfl | he'
        · left; rfl
        · rcases List.mem_append.mp he' with hdl | hrec
          · right
            by_cases hc : BATCH_SIZE < l.length
            · rw [if_pos hc] at hdl; simpa using hdl
            · rw [if_neg hc] at hdl; simp at hdl
          · exact ih _ hd e hrec

theorem elevLoop_trace_shape (elev : List Coord → ElevResponse) (l : List Coord) :
    ∀ e ∈ (elevLoop elev l).1, isBatchEv e = true ∨ e = Ev.delay :=
  elevLoop_trace_shape_aux elev l.length l le_rfl

theorem computeTerrain_fst (cosFn : ℚ → ℚ) (elev : List Coord → ElevResponse)
    (centerLat centerLon size : ℚ) (grid : ℤ) (name : String) :
    (computeTerrain cosFn elev centerLat centerLon size grid name).1
      = Ev.gridGen :: (elevLoop elev (generateGrid centerLat centerLon size (cosFn centerLat) grid)).1 :=
  rfl

theorem computeTerrain_snd_error (cosFn : ℚ → ℚ) (elev : List Coord → ElevResponse)
    (centerLat centerLon size : ℚ) (grid : ℤ) (name : String) (t : Thrown)
    (ht : (elevLoop elev (generateGrid centerLat centerLon size (cosFn centerLat) grid)).2 = .error t) :
    (computeTerrain cosFn elev centerLat centerLon size grid name).2 = .error t := by
  unfold computeTerrain
  simp only [ht]

theorem handler_trace_facts (s : String) (ck : CacheKey) (evs extra L : List Ev)
    (hevs : evs = [] ∨ evs = [Ev.geocode s])
    (hextra : extra = [] ∨ extra = [Ev.cacheGet ck])
    (hL : ∀ e ∈ L, isBatchEv e = true ∨ e = Ev.delay) :
    (∀ k v, Ev.cachePut k v ∉ evs ++ (extra ++ (Ev.gridGen :: L))) ∧
    batchCalls (evs ++ (extra ++ (Ev.gridGen :: L))) = batchCalls L := by
  constructor
  · intro k v hk
    rcases List.mem_append.mp hk with h1 | h2
    · rcases hevs with rfl | rfl
      · simp at h1
      · simp at h1
    · rcases List.mem_append.mp h2 with h3 | h4
      · rcases hextra with rfl | rfl
        · simp at h3
        · simp at h3
      · rcases List.mem_cons.mp h4 with hgg | h5
        · exact Ev.noConfusion hgg
        · rcases hL _ h5 with hb | hd
          · have hfalse : isBatchEv (Ev.cachePut k v) = false := rfl
            rw [hfalse] at hb
            exact Bool.noConfusion hb
          · exact Ev.noConfusion hd
  · rw [batchCalls_append, batchCalls_append]
    have h1 : batchCalls evs = [] := by
      rcases hevs with rfl | rfl <;> simp [batchCalls]
    have h2 : batchCalls extra = [] := by
      rcases hextra with rfl | rfl <;> simp [batchCalls]
    have h3 : batchCalls (Ev.gridGen :: L) = batchCalls L := by
      simp [batchCalls]
    rw [h1, h2, h3]
    rfl

/-! ## Claim C4: a failing batch aborts everything -/

/-- **C4**: on the cache-miss path, if some batch's reply is non-success or
malformed, the whole request fails with status 500, the body is the error
shape (no partial result is returned), no cache write happens, and the batch
calls actually issued form a prefix of the batch partition: each batch is
called at most once, in order — no retries. -/
theorem batch_failure_aborts (cosFn : ℚ → ℚ) (geo : String → GeoResponse)
    (elev : List Coord → ElevResponse) (cache : Option CacheStore)
    (q lat lon sizeS gridS : Option String) (evs : List Ev)
    (centerLat centerLon : ℚ) (name : String) (locs : List Coord)
    (hres : resolveCenter geo q lat lon = (evs, .center (some centerLat) (some centerLon) name))
    (hlocs : locs = generateGrid centerLat centerLon (parseSize sizeS) (cosFn centerLat) (parseGrid gridS))
    (hmiss : ∀ store, cache = some store →
      store (cacheKey centerLat centerLon (parseSize sizeS) (parseGrid gridS)) = none)
    (hfail : ∃ bt ∈ chunksOf locs, ∃ t, processBatch (elev bt) = .error t) :
    (workerFetch cosFn geo elev cache q lat lon sizeS gridS).1.status = 500 ∧
    (∀ m c, (workerFetch cosFn geo elev cache q lat lon sizeS gridS).1.body ≠ .resultBody m c) ∧
    (∀ k v, Ev.cachePut k v ∉ (workerFetch cosFn geo elev cache q lat lon sizeS gridS).2) ∧
    batchCalls (workerFetch cosFn geo elev cache q lat lon sizeS gridS).2 <+: chunksOf locs := by
  subst hlocs
  obtain ⟨t, ht⟩ := elevLoop_error_of_mem elev _ hfail
  have hct := computeTerrain_snd_error cosFn elev centerLat centerLon
    (parseSize sizeS) (parseGrid gridS) name t ht
  have hevs : evs = [] ∨ evs = [Ev.geocode (q.getD "")] := by
    rcases resolveCenter_trace geo q lat lon with htr | htr <;>
      rw [hres] at htr <;> [left; right] <;> exact htr
  have hL := elevLoop_trace_shape elev
    (generateGrid centerLat centerLon (parseSize sizeS) (cosFn centerLat) (parseGrid gridS))
  have hpre := batchCalls_elevLoop_prefix elev
    (generateGrid centerLat centerLon (parseSize sizeS) (cosFn centerLat) (parseGrid gridS))
  cases cache with
  | none =>
    rw [workerFetch_miss_nocache cosFn geo elev q lat lon sizeS gridS evs
        centerLat centerLon name hres,
      runMiss_of_error cosFn elev none centerLat centerLon
        (parseSize sizeS) (parseGrid gridS) name evs t hct]
    have hshape := handler_trace_facts (q.getD "")
      (cacheKey centerLat centerLon (parseSize sizeS) (parseGrid gridS)) evs []
      (elevLoop elev (generateGrid centerLat centerLon (parseSize sizeS) (cosFn centerLat) (parseGrid gridS))).1
      hevs (Or.inl rfl) hL
    rw [computeTerrain_fst]
    refine ⟨rfl, by simp [throwResponse], ?_, ?_⟩
    · intro k v
      have := hshape.1 k v
      simpa using this
    · have := hshape.2
      simp only [List.nil_append] at this
      simpa [this] using hpre
  | some store =>
    have hst := hmiss store rfl
    rw [workerFetch_miss_store cosFn geo elev store q lat lon sizeS gridS evs
        centerLat centerLon name hres hst,
      runMiss_of_error cosFn elev _ centerLat centerLon
        (parseSize sizeS) (parseGrid gridS) name _ t hct]
    have hshape := handler_trace_facts (q.getD "")
      (cacheKey centerLat centerLon (parseSize sizeS) (parseGrid gridS)) evs
      [Ev.cacheGet (cacheKey centerLat centerLon (parseSize sizeS) (parseGrid gridS))]
      (elevLoop elev (generateGrid centerLat centerLon (parseSize sizeS) (cosFn centerLat) (parseGrid gridS))).1
      hevs (Or.inr rfl) hL
    rw [computeTerrain_fst]
    refine ⟨rfl, by simp [throwResponse], ?_, ?_⟩
    · intro k v
      have := hshape.1 k v
      simpa [List.append_assoc] using this
    · have h2 := hshape.2
      simp only [List.singleton_append] at h2
      simpa [h2] using hpre

/-- Witness for `batch_failure_aborts`: a failing upstream on a small explicit
request yields a 500 and the issued calls are a prefix of the partition. -/
theorem batch_failure_aborts_witness :
    (workerFetch cosOne geoX elevFail none (some "x") none none (some "1") (some "2")).1.status = 500 ∧
    batchCalls (workerFetch cosOne geoX elevFail none (some "x") none none (some "1") (some "2")).2
      <+: chunksOf (generateGrid 1 2 (parseSize (some "1")) (cosOne 1) (parseGrid (some "2"))) := by
  have hres : resolveCenter geoX (some "x") none none
      = ([Ev.geocode "x"], .center (some 1) (some 2) "X") := by
    simp +decide [resolveCenter, truthy, geoX, jsParseFloat, parseSign, leadingDigits,
      natOfDigits, digitVal]
  have hg2 : parseGrid (some "2") = 2 := by
    simp +decide [parseGrid, jsParseIntOpt, jsParseInt, parseSign, leadingDigits,
      natOfDigits, digitVal, jsOrZ]
  have hlen4 : (generateGrid 1 2 (parseSize (some "1")) (cosOne 1) (parseGrid (some "2"))).length = 4 := by
    rw [generateGrid_length, hg2]
    rfl
  have hne : generateGrid 1 2 (parseSize (some "1")) (cosOne 1) (parseGrid (some "2")) ≠ [] := by
    intro h
    rw [h] at hlen4
    simp at hlen4
  have hfail : ∃ bt ∈ chunksOf (generateGrid 1 2 (parseSize (some "1")) (cosOne 1) (parseGrid (some "2"))),
      ∃ t, processBatch (elevFail bt) = .error t := by
    rw [chunksOf_cons _ hne]
    exact ⟨_, List.mem_cons_self _ _, ⟨"Elevation API failed"⟩, rfl⟩
  have happ := batch_failure_aborts cosOne geoX elevFail none (some "x") none none
    (some "1") (some "2") [Ev.geocode "x"] 1 2 "X" _ hres rfl
    (by intro store h; exact Option.noConfusion h) hfail
  exact ⟨happ.1, happ.2.2.2⟩

/-! ## Claim C5: cache hits -/

/-- **C5** (amended): on a cache hit the response is 200 carrying exactly the
stored result with the `cached: true` flag added; the Grid Generator and the
Elevation Fetcher are not invoked and no cache write occurs; however the
Coordinate Resolver runs *before* the cache lookup (the key derives from the
resolved center), so the trace is the resolution events followed by the
cache lookup. -/
theorem cache_hit_short_circuit (cosFn : ℚ → ℚ) (geo : String → GeoResponse)
    (elev : List Coord → ElevResponse) (store : CacheStore)
    (q lat lon sizeS gridS : Option String) (evs : List Ev)
    (centerLat centerLon : ℚ) (name : String) (r : TerrainResult)
    (hres : resolveCenter geo q lat lon = (evs, .center (some centerLat) (some centerLon) name))
    (hhit : store (cacheKey centerLat centerLon (parseSize sizeS) (parseGrid gridS)) = some r) :
    workerFetch cosFn geo elev (some store) q lat lon sizeS gridS
      = (⟨200, .resultBody r true⟩,
         evs ++ [Ev.cacheGet (cacheKey centerLat centerLon (parseSize sizeS) (parseGrid gridS))]) ∧
    Ev.gridGen ∉ (workerFetch cosFn geo elev (some store) q lat lon sizeS gridS).2 ∧
    (∀ bb, Ev.elevBatch bb ∉ (workerFetch cosFn geo elev (some store) q lat lon sizeS gridS).2) ∧
    (∀ k v, Ev.cachePut k v ∉ (workerFetch cosFn geo elev (some store) q lat lon sizeS gridS).2) := by
  have h := workerFetch_hit cosFn geo elev store q lat lon sizeS gridS evs
    centerLat centerLon name r hres hhit
  have hevs : evs = [] ∨ evs = [Ev.geocode (q.getD "")] := by
    rcases resolveCenter_trace geo q lat lon with htr | htr <;>
      rw [hres] at htr <;> [left; right] <;> exact htr
  refine ⟨h, ?_, ?_, ?_⟩
  · rw [h]
    rcases hevs with rfl | rfl <;> simp
  · intro bb
    rw [h]
    rcases hevs with rfl | rfl <;> simp
  · intro k v
    rw [h]
    rcases hevs with rfl | rfl <;> simp

/-- Cache store holding `r0` under the key of the geocoded request. -/
def storeHit : CacheStore :=
  fun k => if k = ((1 : ℚ), (2 : ℚ), (10 : ℚ), (40 : ℤ)) then some r0 else none

/-- **C5** counterexample to the claim as stated: on a request with `q = "x"`
whose key is cached, the trace is the geocoding call *followed by* the cache
lookup — the Coordinate Resolver is invoked, and resolution precedes the
lookup, contradicting "the cache lookup happens before coordinate resolution
/ the Coordinate Resolver is not invoked". -/
theorem cache_hit_resolution_counterexample :
    (workerFetch cosOne geoX elevConst5 (some storeHit) (some "x") none none none none).2
      = [Ev.geocode "x", Ev.cacheGet ((1 : ℚ), (2 : ℚ), (10 : ℚ), (40 : ℤ))] ∧
    (workerFetch cosOne geoX elevConst5 (some storeHit) (some "x") none none none none).1
      = ⟨200, .resultBody r0 true⟩ := by
  have hres : resolveCenter geoX (some "x") none none
      = ([Ev.geocode "x"], .center (some 1) (some 2) "X") := by
    simp +decide [resolveCenter, truthy, geoX, jsParseFloat, parseSign, leadingDigits,
      natOfDigits, digitVal]
  have hkey : cacheKey 1 2 (parseSize none) (parseGrid none)
      = ((1 : ℚ), (2 : ℚ), (10 : ℚ), (40 : ℤ)) := by
    norm_num [cacheKey, toFixed4, round_eq, parseSize, parseGrid, jsParseFloatOpt,
      jsParseIntOpt, jsOrQ, jsOrZ]
  have hhit : storeHit (cacheKey 1 2 (parseSize none) (parseGrid none)) = some r0 := by
    rw [hkey]
    simp [storeHit]
  have h := workerFetch_hit cosOne geoX elevConst5 storeHit (some "x") none none none none
    [Ev.geocode "x"] 1 2 "X" r0 hres hhit
  rw [h, hkey]
  exact ⟨rfl, rfl⟩

/-- Witness for `cache_hit_short_circuit` on the same concrete request. -/
theorem cache_hit_short_circuit_witness :
    (workerFetch cosOne geoX elevConst5 (some storeHit) (some "x") none none none none).1
      = ⟨200, .resultBody r0 true⟩ ∧
    Ev.gridGen ∉ (workerFetch cosOne geoX elevConst5 (some storeHit) (some "x") none none none none).2 := by
  have hres : resolveCenter geoX (some "x") none none
      = ([Ev.geocode "x"], .center (some 1) (some 2) "X") := by
    simp +decide [resolveCenter, truthy, geoX, jsParseFloat, parseSign, leadingDigits,
      natOfDigits, digitVal]
  have hkey : cacheKey 1 2 (parseSize none) (parseGrid none)
      = ((1 : ℚ), (2 : ℚ), (10 : ℚ), (40 : ℤ)) := by
    norm_num [cacheKey, toFixed4, round_eq, parseSize, parseGrid, jsParseFloatOpt,
      jsParseIntOpt, jsOrQ, jsOrZ]
  have hhit : storeHit (cacheKey 1 2 (parseSize none) (parseGrid none)) = some r0 := by
    rw [hkey]
    simp [storeHit]
  have happ := cache_hit_short_circuit cosOne geoX elevConst5 storeHit (some "x") none none
    none none [Ev.geocode "x"] 1 2 "X" r0 hres hhit
  exact ⟨congrArg Prod.fst happ.1, happ.2.1⟩

/-! ## Lemmas: resolution branches (claims C8, C9) -/

theorem resolveCenter_missing (geo : String → GeoResponse) (q lat lon : Option String)
    (h1 : truthy q = false) (h2 : (truthy lat && truthy lon) = false) :
    resolveCenter geo q lat lon = ([], .early missingParamsResponse) := by
  unfold resolveCenter
  simp [h1, h2]

theorem resolveCenter_notfound (geo : String → GeoResponse) (q lat lon : Option String)
    (h1 : truthy q = true) (hok : (geo (q.getD "")).ok = true)
    (hbody : (geo (q.getD "")).body = []) :
    resolveCenter geo q lat lon = ([Ev.geocode (q.getD "")], .early notFoundResponse) := by
  unfold resolveCenter
  simp [h1, hok, hbody]

theorem resolveCenter_geofail (geo : String → GeoResponse) (q lat lon : Option String)
    (h1 : truthy q = true) (hok : (geo (q.getD "")).ok = false) :
    resolveCenter geo q lat lon = ([Ev.geocode (q.getD "")], .thrown ⟨"Geocoding failed"⟩) := by
  unfold resolveCenter
  simp [h1, hok]

theorem resolveCenter_explicit (geo : String → GeoResponse) (q lat lon : Option String)
    (h1 : truthy q = false) (h2 : truthy lat = true) (h3 : truthy lon = true) :
    resolveCenter geo q lat lon
      = ([], .center (jsParseFloatOpt lat) (jsParseFloatOpt lon)
             (fmtCoordName (jsParseFloatOpt lat) (jsParseFloatOpt lon))) := by
  unfold resolveCenter
  simp [h1, h2, h3]

theorem runMiss_snd_append (cosFn : ℚ → ℚ) (elev : List Coord → ElevResponse)
    (putKey : Option CacheKey) (centerLat centerLon size : ℚ) (grid : ℤ)
    (name : String) (evs : List Ev) :
    ∃ rest, (runMiss cosFn elev putKey centerLat centerLon size grid name evs).2
      = evs ++ rest := by
  unfold runMiss
  rcases hct : (computeTerrain cosFn elev centerLat centerLon size grid name).2 with t | r
  · simp only [hct]
    exact ⟨_, rfl⟩
  · simp only [hct]
    exact ⟨_, by rw [List.append_assoc]⟩

/-- The handler's trace always begins with the resolution events. -/
theorem workerFetch_trace_prefix (cosFn : ℚ → ℚ) (geo : String → GeoResponse)
    (elev : List Coord → ElevResponse) (cache : Option CacheStore)
    (q lat lon sizeS gridS : Option String) :
    ∃ rest, (workerFetch cosFn geo elev cache q lat lon sizeS gridS).2
      = (resolveCenter geo q lat lon).1 ++ rest := by
  rcases hrc : resolveCenter geo q lat lon with ⟨evs, ro⟩
  cases ro with
  | early r =>
    rw [workerFetch_early cosFn geo elev cache q lat lon sizeS gridS evs r hrc]
    exact ⟨[], by simp⟩
  | thrown t =>
    rw [workerFetch_thrown cosFn geo elev cache q lat lon sizeS gridS evs t hrc]
    exact ⟨[], by simp⟩
  | center oLat oLon name =>
    cases oLat with
    | none =>
      rw [workerFetch_invalid cosFn geo elev cache q lat lon sizeS gridS evs none oLon name hrc (Or.inl rfl)]
      exact ⟨[], by simp⟩
    | some centerLat =>
      cases oLon with
      | none =>
        rw [workerFetch_invalid cosFn geo elev cache q lat lon sizeS gridS evs (some centerLat) none name hrc (Or.inr rfl)]
        exact ⟨[], by simp⟩
      | some centerLon =>
        cases cache with
        | none =>
          rw [workerFetch_miss_nocache cosFn geo elev q lat lon sizeS gridS evs centerLat centerLon name hrc]
          exact runMiss_snd_append cosFn elev none centerLat centerLon _ _ name evs
        | some store =>
          rcases hst : store (cacheKey centerLat centerLon (parseSize sizeS) (parseGrid gridS)) with _ | rc
          · rw [workerFetch_miss_store cosFn geo elev store q lat lon sizeS gridS evs centerLat centerLon name hrc hst]
            obtain ⟨rest, hr⟩ := runMiss_snd_append cosFn elev
              (some (cacheKey centerLat centerLon (parseSize sizeS) (parseGrid gridS)))
              centerLat centerLon (parseSize sizeS) (parseGrid gridS) name
              (evs ++ [Ev.cacheGet (cacheKey centerLat centerLon (parseSize sizeS) (parseGrid gridS))])
            exact ⟨_, by rw [hr, List.append_assoc]⟩
          · rw [workerFetch_hit cosFn geo elev store q lat lon sizeS gridS evs centerLat centerLon name rc hrc hst]
            exact ⟨_, rfl⟩

theorem workerFetch_miss_error (cosFn : ℚ → ℚ) (geo : String → GeoResponse)
    (elev : List Coord → ElevResponse) (cache : Option CacheStore)
    (q lat lon sizeS gridS : Option String) (evs : List Ev)
    (centerLat centerLon : ℚ) (name : String) (t : Thrown)
    (hres : resolveCenter geo q lat lon = (evs, .center (some centerLat) (some centerLon) name))
    (hmiss : ∀ store, cache = some store →
      store (cacheKey centerLat centerLon (parseSize sizeS) (parseGrid gridS)) = none)
    (hct : (computeTerrain cosFn elev centerLat centerLon (parseSize sizeS) (parseGrid gridS) name).2 = .error t) :
    (workerFetch cosFn geo elev cache q lat lon sizeS gridS).1 = throwResponse t := by
  cases cache with
  | none =>
    rw [workerFetch_miss_nocache cosFn geo elev q lat lon sizeS gridS evs centerLat centerLon name hres,
      runMiss_of_error cosFn elev none centerLat centerLon (parseSize sizeS) (parseGrid gridS) name evs t hct]
  | some store =>
    rw [workerFetch_miss_store cosFn geo elev store q lat lon sizeS gridS evs centerLat centerLon name hres (hmiss store rfl),
      runMiss_of_error cosFn elev _ centerLat centerLon (parseSize sizeS) (parseGrid gridS) name _ t hct]

/-- Every non-200 response carries the `{ error, details? }` body shape. -/
theorem workerFetch_error_shape (cosFn : ℚ → ℚ) (geo : String → GeoResponse)
    (elev : List Coord → ElevResponse) (cache : Option CacheStore)
    (q lat lon sizeS gridS : Option String)
    (hne : (workerFetch cosFn geo elev cache q lat lon sizeS gridS).1.status ≠ 200) :
    ∃ m d, (workerFetch cosFn geo elev cache q lat lon sizeS gridS).1.body = .errorBody m d := by
  rcases hrc : resolveCenter geo q lat lon with ⟨evs, ro⟩
  cases ro with
  | early r =>
    rw [workerFetch_early cosFn geo elev cache q lat lon sizeS gridS evs r hrc] at hne ⊢
    rcases resolveCenter_early geo q lat lon evs r hrc with rfl | rfl
    · exact ⟨_, _, rfl⟩
    · exact ⟨_, _, rfl⟩
  | thrown t =>
    rw [workerFetch_thrown cosFn geo elev cache q lat lon sizeS gridS evs t hrc]
    exact ⟨_, _, rfl⟩
  | center oLat oLon name =>
    cases oLat with
    | none =>
      rw [workerFetch_invalid cosFn geo elev cache q lat lon sizeS gridS evs none oLon name hrc (Or.inl rfl)]
      exact ⟨_, _, rfl⟩
    | some centerLat =>
      cases oLon with
      | none =>
        rw [workerFetch_invalid cosFn geo elev cache q lat lon sizeS gridS evs (some centerLat) none name hrc (Or.inr rfl)]
        exact ⟨_, _, rfl⟩
      | some centerLon =>
        cases cache with
        | none =>
          rw [workerFetch_miss_nocache cosFn geo elev q lat lon sizeS gridS evs centerLat centerLon name hrc] at hne ⊢
          rcases hct : (computeTerrain cosFn elev centerLat centerLon (parseSize sizeS) (parseGrid gridS) name).2 with t | r
          · rw [runMiss_of_error cosFn elev none centerLat centerLon _ _ name evs t hct]
            exact ⟨_, _, rfl⟩
          · rw [runMiss_of_ok cosFn elev none centerLat centerLon _ _ name evs r hct] at hne
            simp at hne
        | some store =>
          rcases hst : store (cacheKey centerLat centerLon (parseSize sizeS) (parseGrid gridS)) with _ | rc
          · rw [workerFetch_miss_store cosFn geo elev store q lat lon sizeS gridS evs centerLat centerLon name hrc hst] at hne ⊢
            rcases hct : (computeTerrain cosFn elev centerLat centerLon (parseSize sizeS) (parseGrid gridS) name).2 with t | r
            · rw [runMiss_of_error cosFn elev _ centerLat centerLon _ _ name _ t hct]
              exact ⟨_, _, rfl⟩
            · rw [runMiss_of_ok cosFn elev _ centerLat centerLon _ _ name _ r hct] at hne
              simp at hne
          · rw [workerFetch_hit cosFn geo elev store q lat lon sizeS gridS evs centerLat centerLon name rc hrc hst] at hne
            simp at hne

/-! ## Claim C8: status mapping -/

/-- **C8**: the failure kind determines the HTTP status and the error body has
the `{ error, details? }` shape: missing both location forms → 400 with the
usage message; geocoding succeeding with zero candidates → 404 with body
`{"error":"Location not found"}`; a failed geocoding call → 500; non-numeric
explicit coordinates → 400 "Invalid coordinates"; any thrown pipeline error
(failed or malformed elevation batch, or zero valid samples) on the miss path
→ the 500 catch-all response; every non-200 response is the error shape. -/
theorem status_mapping (cosFn : ℚ → ℚ) (geo : String → GeoResponse)
    (elev : List Coord → ElevResponse) (cache : Option CacheStore)
    (q lat lon sizeS gridS : Option String) :
    (truthy q = false → (truthy lat && truthy lon) = false →
      workerFetch cosFn geo elev cache q lat lon sizeS gridS
        = (⟨400, .errorBody "Provide ?q=location or ?lat=X&lon=Y" none⟩, [])) ∧
    (truthy q = true → (geo (q.getD "")).ok = true → (geo (q.getD "")).body = [] →
      workerFetch cosFn geo elev cache q lat lon sizeS gridS
        = (⟨404, .errorBody "Location not found" none⟩, [Ev.geocode (q.getD "")])) ∧
    (truthy q = true → (geo (q.getD "")).ok = false →
      (workerFetch cosFn geo elev cache q lat lon sizeS gridS).1.status = 500) ∧
    (truthy q = false → truthy lat = true → truthy lon = true →
      (jsParseFloatOpt lat = none ∨ jsParseFloatOpt lon = none) →
      workerFetch cosFn geo elev cache q lat lon sizeS gridS
        = (⟨400, .errorBody "Invalid coordinates" none⟩, [])) ∧
    (∀ evs centerLat centerLon name t,
      resolveCenter geo q lat lon = (evs, .center (some centerLat) (some centerLon) name) →
      (∀ store, cache = some store →
        store (cacheKey centerLat centerLon (parseSize sizeS) (parseGrid gridS)) = none) →
      (computeTerrain cosFn elev centerLat centerLon (parseSize sizeS) (parseGrid gridS) name).2 = .error t →
      (workerFetch cosFn geo elev cache q lat lon sizeS gridS).1
        = ⟨500, .errorBody t.message (some ("Error: " ++ t.message))⟩) ∧
    ((workerFetch cosFn geo elev cache q lat lon sizeS gridS).1.status ≠ 200 →
      ∃ m d, (workerFetch cosFn geo elev cache q lat lon sizeS gridS).1.body = .errorBody m d) := by
  refine ⟨?_, ?_, ?_, ?_, ?_, ?_⟩
  · intro h1 h2
    rw [workerFetch_early cosFn geo elev cache q lat lon sizeS gridS [] missingParamsResponse
      (resolveCenter_missing geo q lat lon h1 h2)]
    rfl
  · intro h1 hok hbody
    rw [workerFetch_early cosFn geo elev cache q lat lon sizeS gridS _ notFoundResponse
      (resolveCenter_notfound geo q lat lon h1 hok hbody)]
    rfl
  · intro h1 hok
    rw [workerFetch_thrown cosFn geo elev cache q lat lon sizeS gridS _ ⟨"Geocoding failed"⟩
      (resolveCenter_geofail geo q lat lon h1 hok)]
    rfl
  · intro h1 h2 h3 hnan
    rw [workerFetch_invalid cosFn geo elev cache q lat lon sizeS gridS [] (jsParseFloatOpt lat)
      (jsParseFloatOpt lon) (fmtCoordName (jsParseFloatOpt lat) (jsParseFloatOpt lon))
      (resolveCenter_explicit geo q lat lon h1 h2 h3) hnan]
    rfl
  · intro evs centerLat centerLon name t hres hmiss hct
    rw [workerFetch_miss_error cosFn geo elev cache q lat lon sizeS gridS evs
      centerLat centerLon name t hres hmiss hct]
    rfl
  · exact workerFetch_error_shape cosFn geo elev cache q lat lon sizeS gridS

/-- Geocoding oracle returning a successful reply with zero candidates. -/
def geoEmpty : String → GeoResponse := fun _ => ⟨true, []⟩

/-- Witness for `status_mapping`: a query resolving to zero candidates
returns 404 with body `{"error":"Location not found"}`. -/
theorem status_mapping_witness :
    workerFetch cosOne geoEmpty elevConst5 none (some "x") none none none none
      = (⟨404, .errorBody "Location not found" none⟩, [Ev.geocode "x"]) := by
  have happ := (status_mapping cosOne geoEmpty elevConst5 none (some "x") none none none none).2.1
  exact happ rfl rfl rfl

/-! ## Claim C9: text query precedence -/

theorem resolveCenter_q_indep (geo : String → GeoResponse) (q lat lon lat' lon' : Option String)
    (hq : truthy q = true) :
    resolveCenter geo q lat lon = resolveCenter geo q lat' lon' := by
  unfold resolveCenter
  rw [if_pos hq, if_pos hq]

theorem resolveCenter_fst_q (geo : String → GeoResponse) (q lat lon : Option String)
    (hq : truthy q = true) :
    (resolveCenter geo q lat lon).1 = [Ev.geocode (q.getD "")] := by
  unfold resolveCenter
  rw [if_pos hq]

/-- **C9**: when a truthy text query `q` is supplied, the explicit `lat`/`lon`
parameters are completely ignored — the whole response and trace are
independent of them — and the request is resolved by geocoding `q`: the very
first action of the request is the geocoding call. -/
theorem query_precedence (cosFn : ℚ → ℚ) (geo : String → GeoResponse)
    (elev : List Coord → ElevResponse) (cache : Option CacheStore)
    (q lat lon lat' lon' sizeS gridS : Option String) (hq : truthy q = true) :
    workerFetch cosFn geo elev cache q lat lon sizeS gridS
      = workerFetch cosFn geo elev cache q lat' lon' sizeS gridS ∧
    (workerFetch cosFn geo elev cache q lat lon sizeS gridS).2.head?
      = some (Ev.geocode (q.getD "")) := by
  constructor
  · unfold workerFetch
    rw [resolveCenter_q_indep geo q lat lon lat' lon' hq]
  · obtain ⟨rest, hr⟩ := workerFetch_trace_prefix cosFn geo elev cache q lat lon sizeS gridS
    rw [hr, resolveCenter_fst_q geo q lat lon hq]
    rfl

/-- Witness for `query_precedence`: the same query with different explicit
coordinate parameters yields identical behavior, geocoding first. -/
theorem query_precedence_witness :
    workerFetch cosOne geoX elevConst5 none (some "x") (some "3") (some "4") none none
      = workerFetch cosOne geoX elevConst5 none (some "x") (some "7") (some "8") none none ∧
    (workerFetch cosOne geoX elevConst5 none (some "x") (some "3") (some "4") none none).2.head?
      = some (Ev.geocode "x") :=
  query_precedence cosOne geoX elevConst5 none (some "x") (some "3") (some "4")
    (some "7") (some "8") none none rfl

/-! ## Claim C6: aggregation -/

/-- **C6**: the aggregator computes `minElev`/`maxElev` as the attained
minimum and maximum over exactly the numeric (valid) samples; sentinel
samples are excluded from the statistics but the result record keeps the
full fetched sample sequence with sentinels at their original positions; the
aggregate throws exactly when zero samples are valid, and on the miss path
that failure is answered with the 500 "No valid elevation data" response
rather than a result. -/
theorem aggregator_spec :
    (∀ (elevs : List Sample) (mn mx : ℚ), aggregate elevs = .ok (mn, mx) →
      mn ∈ elevs.filterMap id ∧ mx ∈ elevs.filterMap id ∧
      ∀ x ∈ elevs.filterMap id, mn ≤ x ∧ x ≤ mx) ∧
    (∀ elevs : List Sample, (∃ t, aggregate elevs = .error t) ↔ elevs.filterMap id = []) ∧
    (∀ (cosFn : ℚ → ℚ) (elev : List Coord → ElevResponse) (centerLat centerLon size : ℚ)
       (grid : ℤ) (name : String) (r : TerrainResult),
      (computeTerrain cosFn elev centerLat centerLon size grid name).2 = .ok r →
      ∃ out, (elevLoop elev (generateGrid centerLat centerLon size (cosFn centerLat) grid)).2 = .ok out ∧
        r.elevations = out ∧ aggregate out = .ok (r.minElev, r.maxElev)) ∧
    (∀ (cosFn : ℚ → ℚ) (geo : String → GeoResponse) (elev : List Coord → ElevResponse)
       (cache : Option CacheStore) (q lat lon sizeS gridS : Option String) (evs : List Ev)
       (centerLat centerLon : ℚ) (name : String) (out : List Sample),
      resolveCenter geo q lat lon = (evs, .center (some centerLat) (some centerLon) name) →
      (∀ store, cache = some store →
        store (cacheKey centerLat centerLon (parseSize sizeS) (parseGrid gridS)) = none) →
      (elevLoop elev (generateGrid centerLat centerLon (parseSize sizeS) (cosFn centerLat) (parseGrid gridS))).2 = .ok out →
      out.filterMap id = [] →
      (workerFetch cosFn geo elev cache q lat lon sizeS gridS).1
        = throwResponse ⟨"No valid elevation data for this location"⟩) := by
  refine ⟨aggregate_ok, aggregate_error_iff, ?_, ?_⟩
  · intro cosFn elev centerLat centerLon size grid name r h
    obtain ⟨out, hel, helev, hagg, _, _, _⟩ :=
      computeTerrain_ok cosFn elev centerLat centerLon size grid name r h
    exact ⟨out, hel, helev, hagg⟩
  · intro cosFn geo elev cache q lat lon sizeS gridS evs centerLat centerLon name out
      hres hmiss hel hval
    have hagg : aggregate out = .error ⟨"No valid elevation data for this location"⟩ := by
      unfold aggregate
      rw [hval]
    have hct : (computeTerrain cosFn elev centerLat centerLon (parseSize sizeS) (parseGrid gridS) name).2
        = .error ⟨"No valid elevation data for this location"⟩ := by
      unfold computeTerrain
      simp only [hel, hagg]
    exact workerFetch_miss_error cosFn geo elev cache q lat lon sizeS gridS evs
      centerLat centerLon name _ hres hmiss hct

/-- Witness for `aggregator_spec`: `[3, sentinel, 1]` aggregates to
`(min, max) = (1, 3)` with the bounds holding at sample 3; a request whose
samples are all sentinels is answered with the 500 error response. -/
theorem aggregator_spec_witness :
    ((1 : ℚ) ≤ 3 ∧ (3 : ℚ) ≤ 3) ∧
    (workerFetch cosOne geoX elevNull none (some "x") none none (some "1") (some "2")).1
      = throwResponse ⟨"No valid elevation data for this location"⟩ := by
  have hagg : aggregate [some 3, none, some 1] = .ok (1, 3) := by
    simp [aggregate, min_def, max_def]
  have hmem : (3 : ℚ) ∈ ([some 3, none, some 1] : List Sample).filterMap id := by
    simp
  have h1 := (aggregator_spec.1 [some 3, none, some 1] 1 3 hagg).2.2 3 hmem
  have hres : resolveCenter geoX (some "x") none none
      = ([Ev.geocode "x"], .center (some 1) (some 2) "X") := by
    simp +decide [resolveCenter, truthy, geoX, jsParseFloat, parseSign, leadingDigits,
      natOfDigits, digitVal]
  have hel := (elevLoop_ok elevNull (fun b => b.map (fun _ => none))
    (generateGrid 1 2 (parseSize (some "1")) (cosOne 1) (parseGrid (some "2")))
    (by intro b _; simp [processBatch, elevNull])).2
  have hval : (((chunksOf (generateGrid 1 2 (parseSize (some "1")) (cosOne 1) (parseGrid (some "2")))).map
      (fun b => b.map (fun _ => (none : Sample)))).flatten).filterMap id = [] := by
    rw [List.filterMap_eq_nil_iff]
    intro a ha
    rcases List.mem_flatten.mp ha with ⟨bb, hb1, hb2⟩
    rcases List.mem_map.mp hb1 with ⟨c, _, rfl⟩
    rcases List.mem_map.mp hb2 with ⟨_, _, rfl⟩
    rfl
  have h2 := aggregator_spec.2.2.2 cosOne geoX elevNull none (some "x") none none
    (some "1") (some "2") [Ev.geocode "x"] 1 2 "X" _ hres
    (by intro store h; exact Option.noConfusion h) hel hval
  exact ⟨h1, h2⟩

/-! ## Claim C10: parameter defaults via falsy-or -/

/-- **C10**: the defaults are applied with the JS falsy-or: an absent,
non-numeric (NaN), or zero `size` becomes 10, and an absent, non-numeric, or
zero `grid` becomes 40; every other parsed value — negative, fractional,
arbitrarily large, outside {20,30,40} — passes through unchanged, so no upper
bound, positivity, or membership check exists. Concrete instances included. -/
theorem param_defaults :
    (parseSize none = 10 ∧ parseGrid none = 40) ∧
    (∀ s, jsParseFloat s = none → parseSize (some s) = 10) ∧
    (∀ s, jsParseFloat s = some 0 → parseSize (some s) = 10) ∧
    (∀ s x, jsParseFloat s = some x → x ≠ 0 → parseSize (some s) = x) ∧
    (∀ s, jsParseInt s = none → parseGrid (some s) = 40) ∧
    (∀ s, jsParseInt s = some 0 → parseGrid (some s) = 40) ∧
    (∀ s x, jsParseInt s = some x → x ≠ 0 → parseGrid (some s) = x) ∧
    (parseSize (some "abc") = 10 ∧ parseSize (some "0") = 10 ∧
     parseSize (some "-3.5") = -7/2 ∧ parseGrid (some "0") = 40 ∧
     parseGrid (some "-7") = -7 ∧ parseGrid (some "1000") = 1000 ∧
     parseGrid (some "37") = 37) := by
  refine ⟨⟨rfl, rfl⟩, ?_, ?_, ?_, ?_, ?_, ?_, ?_⟩
  · intro s h
    simp [parseSize, jsParseFloatOpt, h, jsOrQ]
  · intro s h
    simp [parseSize, jsParseFloatOpt, h, jsOrQ]
  · intro s x h hx
    simp [parseSize, jsParseFloatOpt, h, jsOrQ, hx]
  · intro s h
    simp [parseGrid, jsParseIntOpt, h, jsOrZ]
  · intro s h
    simp [parseGrid, jsParseIntOpt, h, jsOrZ]
  · intro s x h hx
    simp [parseGrid, jsParseIntOpt, h, jsOrZ, hx]
  · refine ⟨?_, ?_, ?_, ?_, ?_, ?_, ?_⟩ <;>
      · first
        | (simp +decide [parseSize, parseGrid, jsParseFloatOpt, jsParseIntOpt, jsParseFloat,
             jsParseInt, parseSign, leadingDigits, natOfDigits, digitVal, jsOrQ, jsOrZ]
           norm_num)
        | simp +decide [parseSize, parseGrid, jsParseFloatOpt, jsParseIntOpt, jsParseFloat,
             jsParseInt, parseSign, leadingDigits, natOfDigits, digitVal, jsOrQ, jsOrZ]

/-- Witness for `param_defaults`: a non-numeric size falls back to 10 and a
negative grid passes through unchecked. -/
theorem param_defaults_witness :
    parseSize (some "abc") = 10 ∧ parseGrid (some "-7") = -7 := by
  obtain ⟨_, h2, _, _, _, _, h7, _⟩ := param_defaults
  refine ⟨h2 "abc" rfl, h7 "-7" (-7) ?_ (by norm_num)⟩
  simp +decide [jsParseInt, parseSign, leadingDigits, natOfDigits, digitVal]
